import Mathlib

/-!
Verification of the Mini-C compiler (lexer, semantic analyzer, IR generator,
optimizer, x86-64 backend) against its specification.

Each Python source file is shallowly embedded: classes become structures,
methods become pure functions threading the object state explicitly, Python
lists/dicts become Lean lists/association lists, and Python's `None` becomes
`Option`.  Machine-level caveats of the embedding:

* Python floats are modelled as exact rationals (`ℚ`).  IEEE-754 rounding,
  overflow-to-infinity of large decimal literals, and the 17-digit repr of
  non-terminating decimals are not modelled; no claim below depends on them.
* `str.isalpha`/`str.isdigit` are modelled on ASCII (the compiler only ever
  produces ASCII operands).
* Python `int` division/modulo use floor semantics: `Int.fdiv`/`Int.fmod`.
-/

/-! ## Python primitives: truthiness, whitespace, digits, numeric parsing -/

/-- Python truthiness of an optional string (`None` and `""` are falsy). -/
def pyTruthy : Option String → Bool
  | some s => !s.isEmpty
  | none => false

/-- Python `str(x)` for an optional string (`str(None) = "None"`). -/
def pyStr : Option String → String
  | some s => s
  | none => "None"

/-- Whitespace stripped by Python's `int()`/`float()` (ASCII subset). -/
def pyIsSpace (c : Char) : Bool :=
  c == ' ' || c == '\t' || c == '\n' || c == '\x0d' || c == '\x0b' || c == '\x0c'

/-- Strip leading and trailing whitespace (Python `str.strip()` on ASCII). -/
def pyStripChars (l : List Char) : List Char :=
  ((l.dropWhile pyIsSpace).reverse.dropWhile pyIsSpace).reverse

/-- Longest prefix of decimal digits with single underscores between digits
(the digit-group grammar of Python's `int()` and `float()`).  Returns the
accumulated value, the number of digits consumed, and the rest.  The first
character must already be a digit when `pyDigitsAux` is entered; `pyDigitGroup`
enforces that. -/
def pyDigitsAux : Nat → Nat → List Char → Nat × Nat × List Char
  | acc, n, [] => (acc, n, [])
  | acc, n, c :: rest =>
    if c.isDigit then pyDigitsAux (acc * 10 + (c.toNat - 48)) (n + 1) rest
    else if c == '_' then
      match rest with
      | d :: rest2 =>
        if d.isDigit then pyDigitsAux (acc * 10 + (d.toNat - 48)) (n + 1) rest2
        else (acc, n, c :: rest)
      | [] => (acc, n, [c])
    else (acc, n, c :: rest)

/-- A digit group must begin with a digit (an underscore may only stand
between two digits). -/
def pyDigitGroup (l : List Char) : Nat × Nat × List Char :=
  match l with
  | c :: _ => if c.isDigit then pyDigitsAux 0 0 l else (0, 0, l)
  | [] => (0, 0, [])

/-- Optional sign, as accepted by `int()`/`float()`. -/
def pySign : List Char → Bool × List Char
  | '+' :: r => (false, r)
  | '-' :: r => (true, r)
  | l => (false, l)

/-- Python `int(s)` in base 10: `None` when a `ValueError` would be raised. -/
def pyIntParse (s : String) : Option Int :=
  let l := pyStripChars s.data
  let (neg, l2) := pySign l
  let (v, n, rest) := pyDigitGroup l2
  if n == 0 || !rest.isEmpty then none
  else some (if neg then -(v : Int) else (v : Int))

/-- ASCII lower-casing, for the case-insensitive `inf`/`nan` spellings. -/
def asciiLower (c : Char) : Char :=
  if 'A' ≤ c && c ≤ 'Z' then Char.ofNat (c.toNat + 32) else c

/-- The value Python's `float(s)` returns. -/
inductive PyFloat where
  | fin (q : ℚ)
  | pinf
  | ninf
  | nan
deriving DecidableEq, Repr

/-- Exponent suffix `(e|E)[sign]digits` of a float literal; `some 0` for the
empty rest, `none` when the rest is not a well-formed exponent. -/
def pyExpPart : List Char → Option Int
  | [] => some 0
  | c :: r =>
    if c == 'e' || c == 'E' then
      let (neg, r2) := pySign r
      let (v, n, rest) := pyDigitGroup r2
      if n == 0 || !rest.isEmpty then none
      else some (if neg then -(v : Int) else (v : Int))
    else none

/-- Scale a rational by `10 ^ e` for a signed exponent. -/
def qScale (q : ℚ) (e : Int) : ℚ :=
  if 0 ≤ e then q * (10 : ℚ) ^ e.toNat else q / (10 : ℚ) ^ (-e).toNat

/-- The digits of a finite float literal as scanned: sign, integer-part
value, fraction-part value, number of fraction digits, exponent. -/
structure FloatLit where
  neg : Bool
  ip : Nat
  fp : Nat
  nf : Nat
  ex : Int
deriving DecidableEq, Repr

/-- Syntactic result of scanning a float literal. -/
inductive FloatScan where
  | fin (p : FloatLit)
  | pinf
  | ninf
  | nan
deriving DecidableEq, Repr

/-- The syntactic phase of Python `float(s)`: `None` when a `ValueError`
would be raised, otherwise the scanned digits (or an `inf`/`nan` spelling). -/
def pyFloatScan (s : String) : Option FloatScan :=
  let l := pyStripChars s.data
  let (neg, l2) := pySign l
  let low := l2.map asciiLower
  if low == "inf".data || low == "infinity".data then
    some (if neg then FloatScan.ninf else FloatScan.pinf)
  else if low == "nan".data then some FloatScan.nan
  else
    let (ip, ni, r1) := pyDigitGroup l2
    match r1 with
    | '.' :: r2 =>
      let (fp, nf, r3) := pyDigitGroup r2
      if ni == 0 && nf == 0 then none
      else
        match pyExpPart r3 with
        | some e => some (FloatScan.fin ⟨neg, ip, fp, nf, e⟩)
        | none => none
    | _ =>
      if ni == 0 then none
      else
        match pyExpPart r1 with
        | some e => some (FloatScan.fin ⟨neg, ip, 0, 0, e⟩)
        | none => none

/-- The exact rational value of a scanned finite float literal. -/
def floatLitVal (p : FloatLit) : ℚ :=
  let v := qScale ((p.ip : ℚ) + (p.fp : ℚ) / (10 : ℚ) ^ p.nf) p.ex
  if p.neg then -v else v

/-- Python `float(s)`: `None` when a `ValueError` would be raised.  The finite
values are exact rationals (see the embedding note at the top). -/
def pyFloatParse (s : String) : Option PyFloat :=
  (pyFloatScan s).map fun r =>
    match r with
    | .fin p => PyFloat.fin (floatLitVal p)
    | .pinf => PyFloat.pinf
    | .ninf => PyFloat.ninf
    | .nan => PyFloat.nan

/-- Whether `float(s)` succeeds (the x86 backend's numeric-literal test). -/
def pyFloatValid (s : String) : Bool :=
  (pyFloatScan s).isSome

/-- A Python number as the optimizer computes with it: an `int` or a `float`
(the latter modelled as an exact rational). -/
inductive PyNum where
  | i (n : Int)
  | f (q : ℚ)
deriving DecidableEq, Repr

/-- The rational value of a Python number (`float(x)` promotion). -/
def pyToQ : PyNum → ℚ
  | .i n => (n : ℚ)
  | .f q => q

/-- Floor of a rational, as a rational (`math.floor`, exact). -/
def pyFloorQ (q : ℚ) : ℚ :=
  ((⌊q⌋ : ℤ) : ℚ)

/-- Python `a + b` on numbers: `int` only when both are `int`. -/
def pyAdd : PyNum → PyNum → PyNum
  | .i a, .i b => .i (a + b)
  | a, b => .f (pyToQ a + pyToQ b)

/-- Python `a - b` on numbers. -/
def pySub : PyNum → PyNum → PyNum
  | .i a, .i b => .i (a - b)
  | a, b => .f (pyToQ a - pyToQ b)

/-- Python `a * b` on numbers. -/
def pyMul : PyNum → PyNum → PyNum
  | .i a, .i b => .i (a * b)
  | a, b => .f (pyToQ a * pyToQ b)

/-- Python `a % b` on numbers: floor-modulo, `float` when either side is. -/
def pyMod : PyNum → PyNum → PyNum
  | .i a, .i b => .i (Int.fmod a b)
  | a, b =>
    let p := pyToQ a
    let q := pyToQ b
    .f (p - q * pyFloorQ (p / q))

/-- Python `a == 0` on a number (`0` and `0.0` both compare equal to `0`). -/
def pyIsZero : PyNum → Bool
  | .i n => n == 0
  | .f q => decide (q = 0)

/-- Python `v == m` for a number against an integer literal. -/
def pyEqInt (v : PyNum) (m : Int) : Bool :=
  match v with
  | .i n => n == m
  | .f q => decide (q = (m : ℚ))

/-- Whether a float value is integral (`float.is_integer`): it equals its own
floor. -/
def pyIsIntegerQ (q : ℚ) : Bool :=
  decide (q = ((⌊q⌋ : ℤ) : ℚ))

/-- Decimal rendering of a rational whose denominator divides a power of ten
(the only floats the folder ever prints have at most 40 fractional digits).
Python's shortest-repr of other floats involves IEEE rounding and is outside
this model; such values get a fallback rendering no claim depends on. -/
def pyFloatRepr (q : ℚ) : String :=
  match (List.range 40).find? (fun k => pyIsIntegerQ (q * (10 : ℚ) ^ k)) with
  | some k =>
    let m := (q * (10 : ℚ) ^ k).num
    let sign := if m < 0 then "-" else ""
    let digits := Nat.repr m.natAbs
    let digits := if digits.length ≤ k then
        String.mk (List.replicate (k + 1 - digits.length) '0') ++ digits
      else digits
    if k == 0 then sign ++ digits
    else
      let cut := digits.length - k
      sign ++ String.mk (digits.data.take cut) ++ "." ++ String.mk (digits.data.drop cut)
  | none => Int.repr q.num ++ "/" ++ Nat.repr q.den

/-- Python `str(value)` for a folded number.  `str(int)` is its decimal form;
a float reaching this point is non-integral (integral floats were coerced to
`int` first), so it renders with a decimal point. -/
def pyNumStr : PyNum → String
  | .i n => Int.repr n
  | .f q => pyFloatRepr q

/-! ## IR instructions (ir_generator.py: class IRInstruction) -/

/-- A three-address-code instruction: `(op, arg1, arg2, result, label)`.
All operand fields default to `None`.  The `CALL` instruction's `arg2` holds
`len(args)` (a Python `int`); it is stored here as its decimal string. -/
structure IRInstruction where
  op : String
  arg1 : Option String := none
  arg2 : Option String := none
  result : Option String := none
  label : Option String := none
deriving DecidableEq, Repr

/-! ## Optimizer (optimizer.py: class Optimizer)

`self.constants` and `self.stats` are written by the passes but never read by
any of them (constant propagation is not implemented), so they do not appear
in the embedded state; each pass is the pure list transformation the source
performs on `instructions`. -/

/-- `Optimizer._get_literal_value`: the numeric value of an operand, or `None`
when the operand is a variable (first character a letter) or fails to parse.
A ValueError from `int()`/`float()` is caught and yields `None`.  A string
containing `'.'` never spells `inf`/`nan`, so the non-finite float branch is
unreachable and mapped to `None`. -/
def getLiteralValue (val : Option String) : Option PyNum :=
  match val with
  | none => none
  | some v =>
    let headIsAlpha := match v.data with
      | c :: _ => c.isAlpha
      | [] => false
    if headIsAlpha then none
    else if v.data.contains '.' then
      match pyFloatScan v with
      | some (.fin p) => some (.f (floatLitVal p))
      | _ => none
    else (pyIntParse v).map PyNum.i

/-- `Optimizer._is_literal`. -/
def isLiteralOperand (val : Option String) : Bool :=
  (getLiteralValue val).isSome

/-- The arithmetic evaluation inside `Optimizer._constant_folding`, lines
59-76 of optimizer.py.  `DIV` uses `arg1 // arg2` when `arg1` is an `int`
(Python floor division, which for an `int` by a `float` yields the floored
quotient as a float) and true division `arg1 / arg2` otherwise. -/
def foldArith (op : String) (a b : PyNum) : PyNum :=
  if op == "ADD" then pyAdd a b
  else if op == "SUB" then pySub a b
  else if op == "MUL" then pyMul a b
  else if op == "DIV" then
    match a with
    | .i n =>
      match b with
      | .i m => .i (Int.fdiv n m)
      | .f q => .f (pyFloorQ ((n : ℚ) / q))
    | .f p => .f (p / pyToQ b)
  else pyMod a b

/-- `value = int(value) if isinstance(value, float) and value.is_integer()`. -/
def pyCoerceIntegral : PyNum → PyNum
  | .f q => if pyIsIntegerQ q then .i ⌊q⌋ else .f q
  | v => v

/-- One instruction of `Optimizer._constant_folding`: an arithmetic
instruction whose both operands are literals is replaced by an `ASSIGN` of the
computed value (zero divisors of `DIV`/`MOD` left untouched); everything else
passes through. -/
def foldInstr (instr : IRInstruction) : IRInstruction :=
  if instr.op == "ADD" || instr.op == "SUB" || instr.op == "MUL" ||
      instr.op == "DIV" || instr.op == "MOD" then
    match getLiteralValue instr.arg1, getLiteralValue instr.arg2 with
    | some a, some b =>
      if (instr.op == "DIV" || instr.op == "MOD") && pyIsZero b then instr
      else
        { op := "ASSIGN", arg1 := some (pyNumStr (pyCoerceIntegral (foldArith instr.op a b))),
          result := instr.result }
    | _, _ => instr
  else instr

/-- `Optimizer._constant_folding` appends exactly one instruction per input
instruction, so the pass is a map. -/
def constantFolding (instructions : List IRInstruction) : List IRInstruction :=
  instructions.map foldInstr

/-- Add an operand to the used-variable set when it is truthy and not a
literal (`if instr.arg1 and not self._is_literal(instr.arg1)`). -/
def addRef (acc : List String) (o : Option String) : List String :=
  match o with
  | some a => if !a.isEmpty && !isLiteralOperand (some a) then acc ++ [a] else acc
  | none => acc

/-- The used-variable scan of `Optimizer._dead_code_elimination` (lines
107-124 of optimizer.py).  Note that `NOT` is absent from the opcode list. -/
def collectUsed (acc : List String) (instr : IRInstruction) : List String :=
  if instr.op == "ADD" || instr.op == "SUB" || instr.op == "MUL" ||
      instr.op == "DIV" || instr.op == "MOD" || instr.op == "EQ" ||
      instr.op == "NE" || instr.op == "LT" || instr.op == "GT" ||
      instr.op == "LE" || instr.op == "GE" || instr.op == "AND" ||
      instr.op == "OR" then
    addRef (addRef acc instr.arg1) instr.arg2
  else if instr.op == "ASSIGN" then addRef acc instr.arg1
  else if instr.op == "IF_FALSE" || instr.op == "IF_TRUE" then addRef acc instr.arg1
  else if instr.op == "RETURN" then addRef acc instr.arg1
  else if instr.op == "PARAM" then addRef acc instr.arg1
  else acc

/-- The used-variable set over a whole instruction list. -/
def usedVars (instructions : List IRInstruction) : List String :=
  instructions.foldl collectUsed []

/-- List-prefix test on characters (Python `str.startswith` on ASCII). -/
def listPrefix : List Char → List Char → Bool
  | [], _ => true
  | _ :: _, [] => false
  | a :: as_, b :: bs => a == b && listPrefix as_ bs

/-- Python `s.startswith(pre)`. -/
def strStartsWith (s pre : String) : Bool :=
  listPrefix pre.data s.data

/-- The keep-test of `Optimizer._dead_code_elimination`: an `ASSIGN` with a
truthy result beginning with `t` that is not in the used set is dropped. -/
def dceKeep (used : List String) (instr : IRInstruction) : Bool :=
  match instr.result with
  | some r =>
    !(instr.op == "ASSIGN" && !r.isEmpty && strStartsWith r "t" && !used.contains r)
  | none => true

/-- `Optimizer._dead_code_elimination`. -/
def deadCodeElimination (instructions : List IRInstruction) : List IRInstruction :=
  let used := usedVars instructions
  instructions.filter (dceKeep used)

/-- One instruction of `Optimizer._strength_reduction`. -/
def srInstr (instr : IRInstruction) : IRInstruction :=
  if instr.op == "MUL" then
    match getLiteralValue instr.arg2 with
    | some v =>
      if pyEqInt v 0 then { op := "ASSIGN", arg1 := some "0", result := instr.result }
      else if pyEqInt v 1 then { op := "ASSIGN", arg1 := instr.arg1, result := instr.result }
      else if pyEqInt v 2 then
        { op := "ADD", arg1 := instr.arg1, arg2 := instr.arg1, result := instr.result }
      else instr
    | none => instr
  else if instr.op == "ADD" then
    -- `self._get_literal_value(instr.arg2) == 0`: `None == 0` is `False`.
    if (getLiteralValue instr.arg2).any (fun v => pyEqInt v 0) then
      { op := "ASSIGN", arg1 := instr.arg1, result := instr.result }
    else if (getLiteralValue instr.arg1).any (fun v => pyEqInt v 0) then
      { op := "ASSIGN", arg1 := instr.arg2, result := instr.result }
    else instr
  else instr

/-- `Optimizer._strength_reduction` appends exactly one instruction per input
instruction, so the pass is a map. -/
def strengthReduction (instructions : List IRInstruction) : List IRInstruction :=
  instructions.map srInstr

/-- `Optimizer.optimize` for a given `optimization_level`. -/
def optimize (level : Int) (instructions : List IRInstruction) : List IRInstruction :=
  if level == 0 then instructions
  else
    let optimized := instructions
    let optimized := if 1 ≤ level then deadCodeElimination (constantFolding optimized)
      else optimized
    let optimized := if 2 ≤ level then strengthReduction optimized else optimized
    optimized

/-! ## Claim C1: constant folding (corrected)

The claim prescribes floating-point arithmetic whenever the operands are not
both integers.  The source instead chooses floor division for `DIV` based on
the FIRST operand alone (`arg1_val // arg2_val if isinstance(arg1_val, int)`),
so `DIV 7, 2.0` folds to `3`, not `3.5`.  `c1ClaimValue` is the claim's value
rule as stated; `c1SpecValue` is the amended rule; `c1Transform` is the
amended per-instruction description. -/

/-- Value rule of claim C1 as stated: integer arithmetic when both operands
are integers (floor division for DIV), floating-point arithmetic otherwise. -/
def c1ClaimValue (op : String) (a b : PyNum) : PyNum :=
  match a, b with
  | .i m, .i n =>
    if op == "ADD" then .i (m + n)
    else if op == "SUB" then .i (m - n)
    else if op == "MUL" then .i (m * n)
    else if op == "DIV" then .i (Int.fdiv m n)
    else .i (Int.fmod m n)
  | _, _ =>
    let p := pyToQ a
    let q := pyToQ b
    if op == "ADD" then .f (p + q)
    else if op == "SUB" then .f (p - q)
    else if op == "MUL" then .f (p * q)
    else if op == "DIV" then .f (p / q)
    else .f (p - q * pyFloorQ (p / q))

/-- Value rule of the amended claim: as `c1ClaimValue`, except that `DIV`
applies floor division whenever its FIRST operand is an integer, even against
a float second operand. -/
def c1SpecValue (op : String) (a b : PyNum) : PyNum :=
  if op == "ADD" then
    match a, b with
    | .i m, .i n => .i (m + n)
    | _, _ => .f (pyToQ a + pyToQ b)
  else if op == "SUB" then
    match a, b with
    | .i m, .i n => .i (m - n)
    | _, _ => .f (pyToQ a - pyToQ b)
  else if op == "MUL" then
    match a, b with
    | .i m, .i n => .i (m * n)
    | _, _ => .f (pyToQ a * pyToQ b)
  else if op == "DIV" then
    match a, b with
    | .i m, .i n => .i (Int.fdiv m n)
    | .i m, .f q => .f (pyFloorQ ((m : ℚ) / q))
    | .f p, _ => .f (p / pyToQ b)
  else
    match a, b with
    | .i m, .i n => .i (Int.fmod m n)
    | _, _ =>
      let p := pyToQ a
      let q := pyToQ b
      .f (p - q * pyFloorQ (p / q))

/-- Per-instruction statement of the amended claim: an arithmetic instruction
(ADD/SUB/MUL/DIV/MOD) whose two operands both parse as numeric literals is
replaced by `ASSIGN <value> -> <dest>` with the value given by `c1SpecValue`
(integral floats coerced to int for display); `DIV`/`MOD` by a zero divisor
and every other instruction are left untouched. -/
def c1Transform (i : IRInstruction) : IRInstruction :=
  if i.op == "ADD" || i.op == "SUB" || i.op == "MUL" ||
      i.op == "DIV" || i.op == "MOD" then
    match getLiteralValue i.arg1, getLiteralValue i.arg2 with
    | some a, some b =>
      if (i.op == "DIV" || i.op == "MOD") && pyIsZero b then i
      else
        { op := "ASSIGN", arg1 := some (pyNumStr (pyCoerceIntegral (c1SpecValue i.op a b))),
          result := i.result }
    | _, _ => i
  else i

theorem foldArith_eq_c1SpecValue (op : String) (a b : PyNum) :
    foldArith op a b = c1SpecValue op a b := by
  unfold foldArith c1SpecValue
  by_cases h1 : (op == "ADD") = true
  · simp only [h1, if_true]
    cases a <;> cases b <;> simp [pyAdd]
  · by_cases h2 : (op == "SUB") = true
    · simp only [h1, h2, if_true, if_false]
      cases a <;> cases b <;> simp [pySub]
    · by_cases h3 : (op == "MUL") = true
      · simp only [h1, h2, h3, if_true, if_false]
        cases a <;> cases b <;> simp [pyMul]
      · by_cases h4 : (op == "DIV") = true
        · simp only [h1, h2, h3, h4, if_true, if_false]
          cases a <;> cases b <;> rfl
        · simp only [h1, h2, h3, h4, if_false]
          cases a <;> cases b <;> simp [pyMod]

theorem foldInstr_eq_c1Transform (i : IRInstruction) : foldInstr i = c1Transform i := by
  unfold foldInstr c1Transform
  simp only [foldArith_eq_c1SpecValue]

def c1DivInstr : IRInstruction :=
  { op := "DIV", arg1 := some "7", arg2 := some "2.0", result := some "t1" }

theorem c1_arg1_literal : getLiteralValue c1DivInstr.arg1 = some (PyNum.i 7) := rfl

theorem c1_arg2_literal : getLiteralValue c1DivInstr.arg2 = some (PyNum.f 2) := by
  have h0 : getLiteralValue c1DivInstr.arg2 =
      some (PyNum.f (floatLitVal ⟨false, 2, 0, 1, 0⟩)) := rfl
  have h1 : floatLitVal ⟨false, 2, 0, 1, 0⟩ = 2 := by
    norm_num [floatLitVal, qScale]
  rw [h0, h1]

theorem c1_floor : ⌊(7 : ℚ) / 2⌋ = 3 := by
  rw [Int.floor_eq_iff]
  constructor <;> norm_num

theorem c1_value :
    pyNumStr (pyCoerceIntegral (foldArith "DIV" (PyNum.i 7) (PyNum.f 2))) = "3" := by
  have h1 : foldArith "DIV" (PyNum.i 7) (PyNum.f 2) = PyNum.f (pyFloorQ ((7 : ℚ) / 2)) := rfl
  rw [h1]
  unfold pyFloorQ
  rw [c1_floor]
  norm_num
  have h3 : pyIsIntegerQ ((3 : ℚ)) = true := by
    simp only [pyIsIntegerQ, decide_eq_true_eq]
    norm_num
  have h2 : pyCoerceIntegral (PyNum.f (3 : ℚ)) = PyNum.i 3 := by
    simp only [pyCoerceIntegral, h3, if_true]
    norm_num
  rw [h2]
  rfl

theorem c1_fold_eval : constantFolding [c1DivInstr] =
    [{ op := "ASSIGN", arg1 := some "3", result := some "t1" }] := by
  show [foldInstr c1DivInstr] = _
  have hz : pyIsZero (PyNum.f 2) = false := by
    simp [pyIsZero]
  have hfold : foldInstr c1DivInstr =
      { op := "ASSIGN", arg1 := some "3", result := some "t1" } := by
    unfold foldInstr
    rw [c1_arg1_literal, c1_arg2_literal]
    simp only [c1DivInstr, hz]
    rw [c1_value]
    decide
  rw [hfold]

/-- C1 counterexample: `DIV 7, 2.0` has an integer first operand and a float
second operand, so the claim as stated prescribes floating-point division
(value `3.5`), but the code folds it with floor division to `ASSIGN 3 -> t1`:
the folded value is the integer `3`, not the float `3.5` the claim demands. -/
theorem c1_counterexample :
    constantFolding [c1DivInstr] =
      [{ op := "ASSIGN", arg1 := some "3", result := some "t1" }] ∧
    getLiteralValue c1DivInstr.arg1 = some (PyNum.i 7) ∧
    getLiteralValue c1DivInstr.arg2 = some (PyNum.f 2) ∧
    c1ClaimValue "DIV" (PyNum.i 7) (PyNum.f 2) = PyNum.f ((7 : ℚ) / 2) ∧
    pyCoerceIntegral (PyNum.f ((7 : ℚ) / 2)) = PyNum.f ((7 : ℚ) / 2) ∧
    PyNum.f ((7 : ℚ) / 2) ≠ PyNum.i 3 := by
  refine ⟨c1_fold_eval, c1_arg1_literal, c1_arg2_literal, rfl, ?_, by simp⟩
  have hne : ¬ ((7 : ℚ) / 2 = ((3 : ℤ) : ℚ)) := by norm_num
  have hnotint : pyIsIntegerQ ((7 : ℚ) / 2) = false := by
    simp only [pyIsIntegerQ, c1_floor, decide_eq_false hne]
  simp [pyCoerceIntegral, hnotint]

/-- C1 amended: constant folding is exactly the per-instruction map
`c1Transform` — each arithmetic instruction with two numeric-literal operands
(first character not a letter, int/float parse as per Python) becomes
`ASSIGN <value> -> <dest>`, where the value uses integer arithmetic when both
operands are integers (floor division for DIV), floating-point arithmetic
otherwise EXCEPT that DIV floors whenever its first operand is an integer;
zero-divisor DIV/MOD and all other instructions are untouched. -/
theorem c1_amended_theorem (instructions : List IRInstruction) :
    constantFolding instructions = instructions.map c1Transform := by
  unfold constantFolding
  have h : foldInstr = c1Transform := funext foldInstr_eq_c1Transform
  rw [h]

/-! ## Claim C2: comparisons are never folded (confirmed) -/

/-- Whether an instruction is one of the six comparison instructions. -/
def isComparisonInstr (i : IRInstruction) : Bool :=
  i.op == "EQ" || i.op == "NE" || i.op == "LT" || i.op == "GT" ||
    i.op == "LE" || i.op == "GE"

theorem isComparisonInstr_op (i : IRInstruction) (h : isComparisonInstr i = true) :
    i.op = "EQ" ∨ i.op = "NE" ∨ i.op = "LT" ∨ i.op = "GT" ∨ i.op = "LE" ∨ i.op = "GE" := by
  have h' := h
  simp only [isComparisonInstr, Bool.or_eq_true, beq_iff_eq] at h'
  tauto

theorem foldInstr_of_comparison (i : IRInstruction) (h : isComparisonInstr i = true) :
    foldInstr i = i := by
  rcases isComparisonInstr_op i h with h' | h' | h' | h' | h' | h' <;>
    simp [foldInstr, h']

theorem srInstr_of_comparison (i : IRInstruction) (h : isComparisonInstr i = true) :
    srInstr i = i := by
  rcases isComparisonInstr_op i h with h' | h' | h' | h' | h' | h' <;>
    simp [srInstr, h']

theorem foldInstr_shape (i : IRInstruction) :
    foldInstr i = i ∨ (foldInstr i).op = "ASSIGN" := by
  unfold foldInstr
  repeat' split
  all_goals first
    | exact Or.inl rfl
    | exact Or.inr rfl

theorem srInstr_shape (i : IRInstruction) :
    srInstr i = i ∨ (srInstr i).op = "ASSIGN" ∨ (srInstr i).op = "ADD" := by
  unfold srInstr
  repeat' split
  all_goals first
    | exact Or.inl rfl
    | exact Or.inr (Or.inl rfl)
    | exact Or.inr (Or.inr rfl)

theorem isComparisonInstr_foldInstr (i : IRInstruction) :
    isComparisonInstr (foldInstr i) = isComparisonInstr i := by
  by_cases h : isComparisonInstr i = true
  · rw [foldInstr_of_comparison i h]
  · rcases foldInstr_shape i with h' | h'
    · rw [h']
    · simp only [Bool.not_eq_true] at h
      rw [h]
      simp [isComparisonInstr, h']

theorem isComparisonInstr_srInstr (i : IRInstruction) :
    isComparisonInstr (srInstr i) = isComparisonInstr i := by
  by_cases h : isComparisonInstr i = true
  · rw [srInstr_of_comparison i h]
  · rcases srInstr_shape i with h' | h' | h'
    · rw [h']
    · simp only [Bool.not_eq_true] at h
      rw [h]
      simp [isComparisonInstr, h']
    · simp only [Bool.not_eq_true] at h
      rw [h]
      simp [isComparisonInstr, h']

theorem filter_map_of_fix {α : Type} (p : α → Bool) (f : α → α)
    (hfix : ∀ x, p x = true → f x = x) (hpres : ∀ x, p (f x) = p x) :
    ∀ l : List α, (l.map f).filter p = l.filter p := by
  intro l
  induction l with
  | nil => rfl
  | cons a t ih =>
    simp only [List.map_cons, List.filter_cons]
    rw [hpres a]
    by_cases ha : p a = true
    · rw [ha, hfix a ha]
      simpa using ih
    · simp only [Bool.not_eq_true] at ha
      rw [ha]
      simpa using ih

theorem filter_filter_of_keep {α : Type} (p keep : α → Bool)
    (h : ∀ x, p x = true → keep x = true) :
    ∀ l : List α, (l.filter keep).filter p = l.filter p := by
  intro l
  induction l with
  | nil => rfl
  | cons a t ih =>
    simp only [List.filter_cons]
    by_cases ha : p a = true
    · rw [h a ha]
      simp only [if_true, List.filter_cons, ha]
      simpa using ih
    · simp only [Bool.not_eq_true] at ha
      by_cases hk : keep a = true
      · rw [hk]
        simp only [if_true, List.filter_cons, ha]
        simpa using ih
      · simp only [Bool.not_eq_true] at hk
        rw [hk]
        simp only [Bool.false_eq_true, if_false, ha]
        simpa using ih

theorem comparison_kept_by_dce (used : List String) (i : IRInstruction)
    (h : isComparisonInstr i = true) : dceKeep used i = true := by
  rcases isComparisonInstr_op i h with h' | h' | h' | h' | h' | h' <;>
    (unfold dceKeep; cases i.result <;> simp [h'])

theorem filter_cmp_constantFolding (l : List IRInstruction) :
    (constantFolding l).filter isComparisonInstr = l.filter isComparisonInstr :=
  filter_map_of_fix isComparisonInstr foldInstr foldInstr_of_comparison
    isComparisonInstr_foldInstr l

theorem filter_cmp_dce (l : List IRInstruction) :
    (deadCodeElimination l).filter isComparisonInstr = l.filter isComparisonInstr :=
  filter_filter_of_keep isComparisonInstr (dceKeep (usedVars l))
    (fun x hx => comparison_kept_by_dce (usedVars l) x hx) l

theorem filter_cmp_strengthReduction (l : List IRInstruction) :
    (strengthReduction l).filter isComparisonInstr = l.filter isComparisonInstr :=
  filter_map_of_fix isComparisonInstr srInstr srInstr_of_comparison
    isComparisonInstr_srInstr l

/-- C2: at every optimization level, the comparison instructions (EQ, NE, LT,
GT, LE, GE) of the input survive optimization unchanged, in order and with
their operands intact — the sublist of comparison instructions of the output
equals that of the input, even when both operands are numeric literals. -/
theorem c2_theorem (level : Int) (instructions : List IRInstruction) :
    (optimize level instructions).filter isComparisonInstr =
      instructions.filter isComparisonInstr := by
  unfold optimize
  split
  · rfl
  · by_cases h1 : (1 : Int) ≤ level
    · by_cases h2 : (2 : Int) ≤ level
      · simp only [h1, h2, if_true]
        rw [filter_cmp_strengthReduction, filter_cmp_dce, filter_cmp_constantFolding]
      · simp only [h1, h2, if_true, if_false]
        rw [filter_cmp_dce, filter_cmp_constantFolding]
    · have h2 : ¬ (2 : Int) ≤ level := by omega
      simp only [h1, h2, if_false]

/-! ## Claim C3: dead temporary elimination (code bug)

The used-variable scan of `_dead_code_elimination` omits the `NOT` opcode, so
a temporary whose only use is as the operand of a `NOT` counts as unused and
its defining `ASSIGN` is deleted — contradicting both the spec (the scan is
over "arithmetic/comparison/logical/ASSIGN/IF_*/RETURN/PARAM" where logical
is {AND, OR, NOT}) and the pass's own purpose of removing only UNUSED
temporaries.  `c3SpecDce` implements the claim's wording. -/

/-- The used-variable scan as the claim states it: `NOT` is one of the
logical instructions whose operands are references. -/
def c3SpecCollectUsed (acc : List String) (instr : IRInstruction) : List String :=
  if instr.op == "ADD" || instr.op == "SUB" || instr.op == "MUL" ||
      instr.op == "DIV" || instr.op == "MOD" || instr.op == "EQ" ||
      instr.op == "NE" || instr.op == "LT" || instr.op == "GT" ||
      instr.op == "LE" || instr.op == "GE" || instr.op == "AND" ||
      instr.op == "OR" || instr.op == "NOT" then
    addRef (addRef acc instr.arg1) instr.arg2
  else if instr.op == "ASSIGN" then addRef acc instr.arg1
  else if instr.op == "IF_FALSE" || instr.op == "IF_TRUE" then addRef acc instr.arg1
  else if instr.op == "RETURN" then addRef acc instr.arg1
  else if instr.op == "PARAM" then addRef acc instr.arg1
  else acc

/-- Dead temporary elimination as the claim states it. -/
def c3SpecDce (instructions : List IRInstruction) : List IRInstruction :=
  let used := instructions.foldl c3SpecCollectUsed []
  instructions.filter (dceKeep used)

def c3Assign : IRInstruction := { op := "ASSIGN", arg1 := some "1", result := some "t1" }
def c3Not : IRInstruction := { op := "NOT", arg1 := some "t1", result := some "t2" }
def c3IfFalse : IRInstruction := { op := "IF_FALSE", arg1 := some "t2", result := some "L1" }

/-- C3 failing input: the lowering of a negated folded condition.  `t1` is
used (it is the operand of the `NOT`), yet the pass deletes `ASSIGN 1 -> t1`,
leaving the `NOT` to read an undefined temporary; under the claim's scan
(which includes `NOT`) the list is unchanged. -/
theorem c3_bug_eval :
    optimize 1 [c3Assign, c3Not, c3IfFalse] = [c3Not, c3IfFalse] ∧
    deadCodeElimination [c3Assign, c3Not, c3IfFalse] = [c3Not, c3IfFalse] ∧
    c3SpecDce [c3Assign, c3Not, c3IfFalse] = [c3Assign, c3Not, c3IfFalse] ∧
    c3Not.arg1 = c3Assign.result := by
  refine ⟨by decide, by decide, by decide, by decide⟩

/-! ## Claim C6: level 0 is the identity; level ≥ 1 never grows the list
(confirmed) -/

/-- C6: `optimize` at level 0 returns its input unchanged, and at every level
`≥ 1` the output has at most as many instructions as the input (constant
folding and strength reduction are maps, dead-code elimination is a filter). -/
theorem c6_theorem (instructions : List IRInstruction) (level : Int) :
    optimize 0 instructions = instructions ∧
    (1 ≤ level → (optimize level instructions).length ≤ instructions.length) := by
  constructor
  · rfl
  · intro h1
    unfold optimize
    have hlen1 : (deadCodeElimination (constantFolding instructions)).length ≤
        instructions.length := by
      calc (deadCodeElimination (constantFolding instructions)).length
          ≤ (constantFolding instructions).length := List.length_filter_le _ _
        _ = instructions.length := List.length_map _ _
    split
    · exact le_rfl
    · by_cases h2 : (2 : Int) ≤ level
      · simp only [h1, h2, if_true]
        calc (strengthReduction (deadCodeElimination (constantFolding instructions))).length
            = (deadCodeElimination (constantFolding instructions)).length :=
              List.length_map _ _
          _ ≤ instructions.length := hlen1
      · simp only [h1, h2, if_true, if_false]
        exact hlen1

/-- Witness for C6 at a concrete input and level. -/
theorem c6_witness :
    optimize 0 [c3Assign] = [c3Assign] ∧ (optimize 1 [c3Assign]).length ≤ 1 :=
  ⟨(c6_theorem [c3Assign] 1).1, (c6_theorem [c3Assign] 1).2 (by norm_num)⟩

/-! ## AST (ParserV2.py node classes)

The AST is the tagged tree the parser produces.  `ASTList`/`OptAST` replace
nested `List AST`/`Option AST` so that all recursion is structural (and hence
kernel-reducible).  A `FunctionDeclaration`'s `body` is a `Block` node or
`None` in the source; both the semantic analyzer and the IR generator only
ever iterate `node.body.statements` when the body is truthy, so the body is
modelled by its statement list (`None` behaves exactly like an empty block).
`parameters` is the list of `(param_type, name)` pairs of its `Parameter`
nodes.  `line`/`col` are kept on the node kinds whose positions the semantic
analyzer prints in diagnostics. -/

mutual

inductive AST where
  | program (statements : ASTList)
  | number (value : String) (line col : Nat)
  | stringLiteral (value : String) (line col : Nat)
  | identifier (name : String) (line col : Nat)
  | binaryOp (operator : String) (left right : AST) (line col : Nat)
  | comparisonOp (operator : String) (left right : AST) (line col : Nat)
  | logicalOp (operator : String) (left : AST) (right : OptAST) (line col : Nat)
  | varDeclaration (var_type ident : String) (value : OptAST) (line col : Nat)
  | assignment (ident : String) (value : AST) (line col : Nat)
  | compoundAssignment (ident operator : String) (value : AST) (line col : Nat)
  | block (statements : ASTList)
  | ifStatement (condition then_block : AST) (else_block : OptAST)
  | whileStatement (condition body : AST)
  | forStatement (init condition update : OptAST) (body : AST)
  | breakStatement
  | continueStatement
  | returnStatement (value : OptAST) (line col : Nat)
  | parameter (param_type name : String)
  | functionDeclaration (return_type name : String)
      (parameters : List (String × String)) (body : ASTList)
  | functionCall (name : String) (arguments : ASTList) (line col : Nat)

inductive ASTList where
  | nil
  | cons (head : AST) (tail : ASTList)

inductive OptAST where
  | none
  | some (node : AST)

end

/-! ## Semantic analyzer (semantic.py)

`SemanticSymbolTable.scopes` is a stack of dicts; here the INNERMOST scope is
the HEAD of the list (Python's `scopes[-1]`), so `reversed(scopes)` lookup is
head-first traversal.  A scope dict is an association list; `declare` only
inserts when the name is absent, so keys stay unique and first-match lookup
agrees with dict lookup. -/

/-- The analyzer state: scope stack, accumulated errors, and
`current_function_return_type`. -/
structure SemState where
  scopes : List (List (String × String))
  errors : List String
  current_function_return_type : Option String
deriving DecidableEq, Repr

/-- Name lookup inside one scope dict. -/
def scopeFind (sc : List (String × String)) (name : String) : Option String :=
  match sc.find? (fun p => p.1 == name) with
  | some p => some p.2
  | none => none

/-- `SemanticSymbolTable.lookup`: innermost-to-outermost walk. -/
def semLookup : List (List (String × String)) → String → Option String
  | [], _ => none
  | sc :: rest, name =>
    match scopeFind sc name with
    | some t => some t
    | none => semLookup rest name

/-- `SemanticSymbolTable.declare`: `False` (state unchanged) when the name is
already in the innermost scope.  The `[]` case cannot arise (the stack starts
at one scope and `exit_scope` never empties it). -/
def semDeclare (s : SemState) (name ty : String) : SemState × Bool :=
  match s.scopes with
  | top :: rest =>
    if (scopeFind top name).isSome then (s, false)
    else ({ s with scopes := (top ++ [(name, ty)]) :: rest }, true)
  | [] => (s, false)

/-- `SemanticSymbolTable.enter_scope`. -/
def enterScope (s : SemState) : SemState :=
  { s with scopes := [] :: s.scopes }

/-- Pop the innermost scope, only when more than one remains
(`SemanticSymbolTable.exit_scope`). -/
def scopesPop : List (List (String × String)) → List (List (String × String))
  | _ :: b :: rest => b :: rest
  | l => l

/-- `SemanticSymbolTable.exit_scope`. -/
def exitScope (s : SemState) : SemState :=
  { s with scopes := scopesPop s.scopes }

/-- `self.errors.append(msg)`. -/
def pushErr (s : SemState) (msg : String) : SemState :=
  { s with errors := s.errors ++ [msg] }

/-- `f"Semantic Error at {line}:{col}: {msg}"`. -/
def semErrAt (line col : Nat) (msg : String) : String :=
  "Semantic Error at " ++ toString line ++ ":" ++ toString col ++ ": " ++ msg

/-- `f"Type Error at {line}:{col}: {msg}"`. -/
def typeErrAt (line col : Nat) (msg : String) : String :=
  "Type Error at " ++ toString line ++ ":" ++ toString col ++ ": " ++ msg

/-- `var_type.split(':')[1]`: the segment between the first and second `:`. -/
def splitColonSecond (ty : String) : String :=
  String.mk (((ty.data.dropWhile (fun c => c != ':')).drop 1).takeWhile (fun c => c != ':'))

mutual

/-- `SemanticAnalyzer.visit`, dispatching exactly as the per-node visitors of
semantic.py do; returns the expression type (Python `None` for statements)
and the updated analyzer state. -/
def semVisit (n : AST) (s : SemState) : Option String × SemState :=
  match n with
  | .program stmts => (none, semVisitSeq stmts s)
  | .block stmts => (none, exitScope (semVisitSeq stmts (enterScope s)))
  | .varDeclaration vt name value line col =>
    let d := semDeclare s name vt
    let s2 := if d.2 then d.1
      else pushErr d.1 (semErrAt line col ("Variable '" ++ name ++ "' already declared"))
    match value with
    | .none => (none, s2)
    | .some v =>
      let (initTy, s3) := semVisit v s2
      let s4 := match initTy with
        | some ty =>
          if !ty.isEmpty && ty != vt then
            if !(vt == "float" && ty == "int") then
              pushErr s3 (typeErrAt line col ("Cannot assign " ++ ty ++ " to " ++ vt))
            else s3
          else s3
        | none => s3
      (none, s4)
  | .assignment name value line col =>
    match semLookup s.scopes name with
    | none =>
      (none, pushErr s (semErrAt line col ("Variable '" ++ name ++ "' not declared")))
    | some vt =>
      let (valueTy, s1) := semVisit value s
      let s2 := match valueTy with
        | some ty =>
          if !ty.isEmpty && ty != vt then
            if !(vt == "float" && ty == "int") then
              pushErr s1 (typeErrAt line col ("Cannot assign " ++ ty ++ " to " ++ vt))
            else s1
          else s1
        | none => s1
      (some vt, s2)
  | .compoundAssignment name opr value line col =>
    match semLookup s.scopes name with
    | none =>
      (none, pushErr s (semErrAt line col ("Variable '" ++ name ++ "' not declared")))
    | some vt =>
      -- `value_type = self.visit(node.value)` is computed but never compared
      -- against `var_type`; only the numeric check below follows.
      let (_, s1) := semVisit value s
      let s2 := if !(vt == "int" || vt == "float") then
          pushErr s1 (typeErrAt line col ("Cannot use '" ++ opr ++ "' on type " ++ vt))
        else s1
      (some vt, s2)
  | .identifier name line col =>
    match semLookup s.scopes name with
    | none =>
      (none, pushErr s (semErrAt line col ("Variable '" ++ name ++ "' used before declaration")))
    | some vt =>
      if strStartsWith vt "function:" then (some (splitColonSecond vt), s)
      else (some vt, s)
  | .number v _ _ => (some (if v.data.contains '.' then "float" else "int"), s)
  | .stringLiteral _ _ _ => (some "string", s)
  | .binaryOp opr lhs rhs line col =>
    let (lt, s1) := semVisit lhs s
    let (rt, s2) := semVisit rhs s1
    match lt, rt with
    | some ltv, some rtv =>
      if ltv != rtv then
        if (ltv == "int" && rtv == "float") || (ltv == "float" && rtv == "int") then
          (some "float", s2)
        else
          (none, pushErr s2 (typeErrAt line col
            ("Incompatible types " ++ ltv ++ " and " ++ rtv)))
      else
        if opr == "+" || opr == "-" || opr == "*" || opr == "/" || opr == "%" then
          if !(ltv == "int" || ltv == "float") then
            (none, pushErr s2 (typeErrAt line col
              ("Invalid operation '" ++ opr ++ "' on type " ++ ltv)))
          else (some ltv, s2)
        else (some ltv, s2)
    | _, _ => (none, s2)
  | .comparisonOp _ lhs rhs line col =>
    let (lt, s1) := semVisit lhs s
    let (rt, s2) := semVisit rhs s1
    match lt, rt with
    | some ltv, some rtv =>
      if ltv != rtv then
        if !((ltv == "int" && rtv == "float") || (ltv == "float" && rtv == "int")) then
          (some "int", pushErr s2 (typeErrAt line col
            ("Cannot compare " ++ ltv ++ " with " ++ rtv)))
        else (some "int", s2)
      else (some "int", s2)
    | _, _ => (some "int", s2)
  | .logicalOp _ lhs rhs _ _ =>
    let (_, s1) := semVisit lhs s
    let s2 := semVisitOpt rhs s1
    (some "int", s2)
  | .ifStatement c tb eb =>
    let s1 := (semVisit c s).2
    let s2 := (semVisit tb s1).2
    (none, semVisitOpt eb s2)
  | .whileStatement c b =>
    let s1 := (semVisit c s).2
    (none, (semVisit b s1).2)
  | .forStatement init c u b =>
    let s1 := enterScope s
    let s2 := semVisitOpt init s1
    let s3 := semVisitOpt c s2
    let s4 := semVisitOpt u s3
    let s5 := (semVisit b s4).2
    (none, exitScope s5)
  | .breakStatement => (none, s)
  | .continueStatement => (none, s)
  | .returnStatement value line col =>
    match value with
    | .none => (none, s)
    | .some v =>
      let (rt, s1) := semVisit v s
      let s2 := match s1.current_function_return_type with
        | some crt =>
          if !crt.isEmpty then
            match rt with
            | some rtv =>
              if !rtv.isEmpty && rtv != crt then
                if !(crt == "float" && rtv == "int") then
                  pushErr s1 (typeErrAt line col "Return type mismatch")
                else s1
              else s1
            | none => s1
          else s1
        | none => s1
      (none, s2)
  | .parameter _ _ => (none, s)
  | .functionDeclaration rt name params body =>
    let s1 := (semDeclare s name ("function:" ++ rt)).1
    let s2 := { enterScope s1 with current_function_return_type := some rt }
    let s3 := params.foldl (fun st p => (semDeclare st p.2 p.1).1) s2
    let s4 := semVisitSeq body s3
    let s5 := { s4 with current_function_return_type := none }
    (none, exitScope s5)
  | .functionCall name args line col =>
    match semLookup s.scopes name with
    | none =>
      (none, pushErr s (semErrAt line col ("Undefined function '" ++ name ++ "'")))
    | some ft =>
      let s1 := semVisitSeq args s
      if strStartsWith ft "function:" then (some (splitColonSecond ft), s1)
      else (some "int", s1)

/-- Visit a statement sequence, discarding expression values. -/
def semVisitSeq (l : ASTList) (s : SemState) : SemState :=
  match l with
  | .nil => s
  | .cons h t => semVisitSeq t (semVisit h s).2

/-- `if node.x: self.visit(node.x)` for an optional child. -/
def semVisitOpt (o : OptAST) (s : SemState) : SemState :=
  match o with
  | .none => s
  | .some n => (semVisit n s).2

end

/-- The analyzer's initial state: one global scope seeded with the stdlib
(`SemanticAnalyzer.__init__` + `_add_stdlib`). -/
def semInitState : SemState :=
  { scopes := [[("printf", "function:int"), ("scanf", "function:int")]],
    errors := [], current_function_return_type := none }

/-! ## Scope-stack invariants of the semantic analyzer (claims C4, C10)

The key lemma: every visit maps a scope stack `top :: rest` to some
`top2 :: rest` — only the innermost scope can change, every `enter_scope` is
paired with an `exit_scope`, and the stack never shrinks below its incoming
tail. -/

theorem semDeclare_tail (s : SemState) (name ty : String)
    (top : List (String × String)) (rest : List (List (String × String)))
    (h : s.scopes = top :: rest) :
    ∃ t2, ((semDeclare s name ty).1).scopes = t2 :: rest := by
  unfold semDeclare
  rw [h]
  dsimp only
  split
  · exact ⟨top, by rw [h]⟩
  · exact ⟨top ++ [(name, ty)], rfl⟩

theorem semDeclareFold_tail : (params : List (String × String)) → (s : SemState) →
    (top : List (String × String)) → (rest : List (List (String × String))) →
    s.scopes = top :: rest →
    ∃ t2, ((params.foldl (fun st p => (semDeclare st p.2 p.1).1) s)).scopes = t2 :: rest
  | [], s, top, rest, h => ⟨top, by simpa using h⟩
  | p :: ps, s, top, rest, h => by
    obtain ⟨t2, h2⟩ := semDeclare_tail s p.2 p.1 top rest h
    simpa using semDeclareFold_tail ps _ t2 rest h2

mutual

theorem semScopesTail : (n : AST) → (s : SemState) → (top : List (String × String)) →
    (rest : List (List (String × String))) → s.scopes = top :: rest →
    ∃ t2, ((semVisit n s).2).scopes = t2 :: rest
  | .program stmts, s, top, rest, h => by
    simpa [semVisit] using semScopesTailSeq stmts s top rest h
  | .block stmts, s, top, rest, h => by
    obtain ⟨t2, h2⟩ := semScopesTailSeq stmts (enterScope s) [] (top :: rest)
      (by simp [enterScope, h])
    refine ⟨top, ?_⟩
    simp only [semVisit, exitScope]
    rw [show (semVisitSeq stmts (enterScope s)).scopes = t2 :: top :: rest from h2]
    rfl
  | .varDeclaration vt name value line col, s, top, rest, h => by
    obtain ⟨t1, h1⟩ := semDeclare_tail s name vt top rest h
    rcases hd : semDeclare s name vt with ⟨s1, ok⟩
    rw [hd] at h1
    simp only at h1
    have hs2 : (if ok then s1
        else pushErr s1 (semErrAt line col ("Variable '" ++ name ++ "' already declared"))).scopes
        = t1 :: rest := by
      cases ok <;> simpa [pushErr] using h1
    cases value with
    | none =>
      refine ⟨t1, ?_⟩
      simp only [semVisit, hd]
      exact hs2
    | some v =>
      obtain ⟨t3, h3⟩ := semScopesTail v _ t1 rest hs2
      refine ⟨t3, ?_⟩
      simp only [semVisit, hd]
      rcases hv : semVisit v (if ok then s1
        else pushErr s1 (semErrAt line col ("Variable '" ++ name ++ "' already declared"))) with ⟨ity, s3⟩
      rw [hv] at h3
      simp only at h3
      simp only [hv]
      rcases ity with _ | ty
      · simpa using h3
      · try dsimp only
        split_ifs <;> simpa [pushErr] using h3
  | .assignment name value line col, s, top, rest, h => by
    rcases hl : semLookup s.scopes name with _ | vt
    · refine ⟨top, ?_⟩
      simp only [semVisit, hl]
      simpa [pushErr] using h
    · obtain ⟨t1, h1⟩ := semScopesTail value s top rest h
      refine ⟨t1, ?_⟩
      simp only [semVisit, hl]
      rcases hv : semVisit value s with ⟨ity, s1⟩
      rw [hv] at h1
      simp only at h1
      simp only [hv]
      rcases ity with _ | ty
      · simpa using h1
      · try dsimp only
        split_ifs <;> simpa [pushErr] using h1
  | .compoundAssignment name opr value line col, s, top, rest, h => by
    rcases hl : semLookup s.scopes name with _ | vt
    · refine ⟨top, ?_⟩
      simp only [semVisit, hl]
      simpa [pushErr] using h
    · obtain ⟨t1, h1⟩ := semScopesTail value s top rest h
      refine ⟨t1, ?_⟩
      simp only [semVisit, hl]
      rcases hv : semVisit value s with ⟨ity, s1⟩
      rw [hv] at h1
      simp only at h1
      simp only [hv]
      try dsimp only
      split_ifs <;> simpa [pushErr] using h1
  | .identifier name line col, s, top, rest, h => by
    refine ⟨top, ?_⟩
    rcases hl : semLookup s.scopes name with _ | vt
    · simp only [semVisit, hl]
      simpa [pushErr] using h
    · simp only [semVisit, hl]
      split <;> simpa using h
  | .number v line col, s, top, rest, h => ⟨top, by simpa [semVisit] using h⟩
  | .stringLiteral v line col, s, top, rest, h => ⟨top, by simpa [semVisit] using h⟩
  | .binaryOp opr lhs rhs line col, s, top, rest, h => by
    obtain ⟨t1, h1⟩ := semScopesTail lhs s top rest h
    obtain ⟨t2, h2⟩ := semScopesTail rhs _ t1 rest h1
    refine ⟨t2, ?_⟩
    simp only [semVisit]
    rcases hL : semVisit lhs s with ⟨lt, s1⟩
    rw [hL] at h2
    rcases hR : semVisit rhs s1 with ⟨rt, s2⟩
    rw [hR] at h2
    simp only at h2
    simp only [hL, hR]
    rcases lt with _ | ltv <;> rcases rt with _ | rtv <;>
      first
        | simpa using h2
        | (try dsimp only
           split_ifs <;> simpa [pushErr] using h2)
  | .comparisonOp opr lhs rhs line col, s, top, rest, h => by
    obtain ⟨t1, h1⟩ := semScopesTail lhs s top rest h
    obtain ⟨t2, h2⟩ := semScopesTail rhs _ t1 rest h1
    refine ⟨t2, ?_⟩
    simp only [semVisit]
    rcases hL : semVisit lhs s with ⟨lt, s1⟩
    rw [hL] at h2
    rcases hR : semVisit rhs s1 with ⟨rt, s2⟩
    rw [hR] at h2
    simp only at h2
    simp only [hL, hR]
    rcases lt with _ | ltv <;> rcases rt with _ | rtv <;>
      first
        | simpa using h2
        | (try dsimp only
           split_ifs <;> simpa [pushErr] using h2)
  | .logicalOp opr lhs rhs line col, s, top, rest, h => by
    obtain ⟨t1, h1⟩ := semScopesTail lhs s top rest h
    obtain ⟨t2, h2⟩ := semScopesTailOpt rhs _ t1 rest h1
    exact ⟨t2, by simpa [semVisit] using h2⟩
  | .ifStatement c tb eb, s, top, rest, h => by
    obtain ⟨t1, h1⟩ := semScopesTail c s top rest h
    obtain ⟨t2, h2⟩ := semScopesTail tb _ t1 rest h1
    obtain ⟨t3, h3⟩ := semScopesTailOpt eb _ t2 rest h2
    exact ⟨t3, by simpa [semVisit] using h3⟩
  | .whileStatement c b, s, top, rest, h => by
    obtain ⟨t1, h1⟩ := semScopesTail c s top rest h
    obtain ⟨t2, h2⟩ := semScopesTail b _ t1 rest h1
    exact ⟨t2, by simpa [semVisit] using h2⟩
  | .forStatement init c u b, s, top, rest, h => by
    obtain ⟨t1, h1⟩ := semScopesTailOpt init (enterScope s) [] (top :: rest)
      (by simp [enterScope, h])
    obtain ⟨t2, h2⟩ := semScopesTailOpt c _ t1 (top :: rest) h1
    obtain ⟨t3, h3⟩ := semScopesTailOpt u _ t2 (top :: rest) h2
    obtain ⟨t4, h4⟩ := semScopesTail b _ t3 (top :: rest) h3
    refine ⟨top, ?_⟩
    simp only [semVisit, exitScope]
    rw [show ((semVisit b (semVisitOpt u (semVisitOpt c (semVisitOpt init
      (enterScope s))))).2).scopes = t4 :: top :: rest from h4]
    rfl
  | .breakStatement, s, top, rest, h => ⟨top, by simpa [semVisit] using h⟩
  | .continueStatement, s, top, rest, h => ⟨top, by simpa [semVisit] using h⟩
  | .returnStatement value line col, s, top, rest, h => by
    cases value with
    | none => exact ⟨top, by simpa [semVisit] using h⟩
    | some v =>
      obtain ⟨t1, h1⟩ := semScopesTail v s top rest h
      refine ⟨t1, ?_⟩
      simp only [semVisit]
      rcases hv : semVisit v s with ⟨rt, s1⟩
      rw [hv] at h1
      simp only at h1
      simp only [hv]
      rcases hc : s1.current_function_return_type with _ | crt <;> simp only [hc]
      · simpa using h1
      · rcases rt with _ | rtv <;> try dsimp only
        all_goals split_ifs <;> simpa [pushErr] using h1
  | .parameter pt pn, s, top, rest, h => ⟨top, by simpa [semVisit] using h⟩
  | .functionDeclaration rt name params body, s, top, rest, h => by
    obtain ⟨t1, h1⟩ := semDeclare_tail s name ("function:" ++ rt) top rest h
    have h2 : ({ enterScope (semDeclare s name ("function:" ++ rt)).1 with
        current_function_return_type := some rt } : SemState).scopes = [] :: t1 :: rest := by
      simpa [enterScope] using h1
    obtain ⟨t3, h3⟩ := semDeclareFold_tail params _ [] (t1 :: rest) h2
    obtain ⟨t4, h4⟩ := semScopesTailSeq body _ t3 (t1 :: rest) h3
    refine ⟨t1, ?_⟩
    simp only [semVisit, exitScope]
    rw [show (({ semVisitSeq body (params.foldl (fun st p => (semDeclare st p.2 p.1).1)
      ({ enterScope (semDeclare s name ("function:" ++ rt)).1 with
         current_function_return_type := some rt })) with
      current_function_return_type := none } : SemState)).scopes = t4 :: t1 :: rest from h4]
    rfl
  | .functionCall name args line col, s, top, rest, h => by
    rcases hl : semLookup s.scopes name with _ | ft
    · refine ⟨top, ?_⟩
      simp only [semVisit, hl]
      simpa [pushErr] using h
    · obtain ⟨t1, h1⟩ := semScopesTailSeq args s top rest h
      refine ⟨t1, ?_⟩
      simp only [semVisit, hl]
      split <;> simpa using h1

theorem semScopesTailSeq : (l : ASTList) → (s : SemState) → (top : List (String × String)) →
    (rest : List (List (String × String))) → s.scopes = top :: rest →
    ∃ t2, ((semVisitSeq l s)).scopes = t2 :: rest
  | .nil, s, top, rest, h => ⟨top, by simpa [semVisitSeq] using h⟩
  | .cons hd tl, s, top, rest, h => by
    obtain ⟨t1, h1⟩ := semScopesTail hd s top rest h
    simpa [semVisitSeq] using semScopesTailSeq tl _ t1 rest h1

theorem semScopesTailOpt : (o : OptAST) → (s : SemState) → (top : List (String × String)) →
    (rest : List (List (String × String))) → s.scopes = top :: rest →
    ∃ t2, ((semVisitOpt o s)).scopes = t2 :: rest
  | .none, s, top, rest, h => ⟨top, by simpa [semVisitOpt] using h⟩
  | .some n, s, top, rest, h => by
    simpa [semVisitOpt] using semScopesTail n s top rest h

end

/-- C10: the semantic analyzer gives each `for` statement its own scope — the
scope stack after visiting a `for` is exactly the stack before it (so a
variable declared in the initializer is not visible after the loop, and every
name looks up to the same binding as before), and every visit leaves the
scope-stack depth unchanged whenever the stack is non-empty (it never drops
below one scope). -/
theorem c10_theorem :
    (∀ (init c u : OptAST) (b : AST) (s : SemState), s.scopes ≠ [] →
      ((semVisit (.forStatement init c u b) s).2).scopes = s.scopes) ∧
    (∀ (n : AST) (s : SemState), s.scopes ≠ [] →
      ((semVisit n s).2).scopes.length = s.scopes.length) := by
  constructor
  · intro init c u b s hne
    rcases hs : s.scopes with _ | ⟨top, rest⟩
    · exact absurd hs hne
    · obtain ⟨t1, h1⟩ := semScopesTailOpt init (enterScope s) [] (top :: rest)
        (by simp [enterScope, hs])
      obtain ⟨t2, h2⟩ := semScopesTailOpt c _ t1 (top :: rest) h1
      obtain ⟨t3, h3⟩ := semScopesTailOpt u _ t2 (top :: rest) h2
      obtain ⟨t4, h4⟩ := semScopesTail b _ t3 (top :: rest) h3
      simp only [semVisit, exitScope]
      rw [show ((semVisit b (semVisitOpt u (semVisitOpt c (semVisitOpt init
        (enterScope s))))).2).scopes = t4 :: top :: rest from h4]
      rfl
  · intro n s hne
    rcases hs : s.scopes with _ | ⟨top, rest⟩
    · exact absurd hs hne
    · obtain ⟨t2, h2⟩ := semScopesTail n s top rest hs
      rw [h2]
      simp

def c10For : AST :=
  .forStatement (.some (.varDeclaration "int" "i" (.some (.number "0" 3 14)) 3 10))
    OptAST.none OptAST.none (.block ASTList.nil)

/-- Witness for C10 at a concrete `for` statement and state. -/
theorem c10_witness :
    ((semVisit c10For semInitState).2).scopes = semInitState.scopes ∧
    ((semVisit (.block ASTList.nil) semInitState).2).scopes.length
      = semInitState.scopes.length := by
  constructor
  · exact c10_theorem.1 _ _ _ _ semInitState (by decide)
  · exact c10_theorem.2 _ semInitState (by decide)

def c4State : SemState :=
  { scopes := [[("x", "int")]], errors := [], current_function_return_type := none }
def c4Rhs : AST := .stringLiteral "\"hello\"" 1 6
def c4Node : AST := .compoundAssignment "x" "+=" c4Rhs 1 1

/-- C4 counterexample: `x += "hello"` with `x : int`.  The right-hand side
types as `string`, which differs from `int` and is not covered by the
`float := int` widening, so the claim demands a recorded type error — but the
analyzer records none (`x` is numeric and the RHS type is never compared). -/
theorem c4_counterexample :
    ((semVisit c4Node c4State).2).errors = [] ∧
    (semVisit c4Rhs c4State).1 = some "string" ∧
    semLookup c4State.scopes "x" = some "int" ∧
    ("string" : String) ≠ "int" ∧
    ¬(("int" : String) = "float" ∧ ("string" : String) = "int") := by
  refine ⟨by decide, by decide, by decide, by decide, by decide⟩

/-- C4 amended: for a declared variable the analyzer never compares the
right-hand side's type against the variable's type (the RHS is visited, so
only errors arising inside the RHS itself are recorded); the compound
assignment adds exactly one type error — `Cannot use '<op>' on type <t>` —
precisely when the variable's type is not `int` and not `float`, and the
expression's type is the variable's type. -/
theorem c4_amended_theorem (name opr : String) (v : AST) (line col : Nat)
    (s : SemState) (t : String) (hl : semLookup s.scopes name = some t) :
    ((t = "int" ∨ t = "float") →
      ((semVisit (.compoundAssignment name opr v line col) s).2).errors
        = ((semVisit v s).2).errors) ∧
    (t ≠ "int" → t ≠ "float" →
      ((semVisit (.compoundAssignment name opr v line col) s).2).errors
        = ((semVisit v s).2).errors
          ++ [typeErrAt line col ("Cannot use '" ++ opr ++ "' on type " ++ t)]) ∧
    (semVisit (.compoundAssignment name opr v line col) s).1 = some t := by
  rcases hv : semVisit v s with ⟨ity, s1⟩
  have hrw : ((semVisit v s).2) = s1 := by rw [hv]
  refine ⟨?_, ?_, ?_⟩
  · intro ht
    have hc : (!(t == "int" || t == "float")) = false := by
      rcases ht with h | h <;> simp [h]
    simp [semVisit, hl, hv, hc, hrw]
  · intro h1 h2
    have hc : (!(t == "int" || t == "float")) = true := by
      simp [beq_iff_eq, h1, h2]
    simp [semVisit, hl, hv, hc, pushErr, hrw]
  · simp [semVisit, hl, hv]

/-- Witness for C4's amended theorem: `x += "hello"` with `x : int` records
no error beyond those of the right-hand side (none here). -/
theorem c4_witness :
    ((semVisit c4Node c4State).2).errors = ((semVisit c4Rhs c4State).2).errors ∧
    (semVisit c4Node c4State).1 = some "int" := by
  have h := c4_amended_theorem "x" "+=" c4Rhs 1 1 c4State "int" (by decide)
  exact ⟨h.1 (Or.inl rfl), h.2.2⟩

/-! ## IR generator (ir_generator.py: class IRGenerator)

State fields mirror the generator's attributes.  `string_literals` and
`var_types` are dicts; `var_types` assignments overwrite, so new bindings are
prepended and lookup takes the first match.  Loop stacks push at the tail
(`append`/`pop`/`[-1]`). -/

structure IRGenState where
  instructions : List IRInstruction
  temp_counter : Nat
  label_counter : Nat
  current_function : Option String
  string_literals : List (String × String)
  string_counter : Nat
  var_types : List (String × String)
  loop_start_stack : List String
  loop_end_stack : List String
deriving DecidableEq, Repr

/-- `IRGenerator.emit` (the instruction is appended; its return value is
never used by the visitors). -/
def irEmit (s : IRGenState) (i : IRInstruction) : IRGenState :=
  { s with instructions := s.instructions ++ [i] }

/-- `IRGenerator.new_temp`. -/
def irNewTemp (s : IRGenState) : String × IRGenState :=
  ("t" ++ toString (s.temp_counter + 1), { s with temp_counter := s.temp_counter + 1 })

/-- `IRGenerator.new_label`. -/
def irNewLabel (s : IRGenState) (pre : String) : String × IRGenState :=
  (pre ++ toString (s.label_counter + 1), { s with label_counter := s.label_counter + 1 })

/-- `IRGenerator.new_string_label`. -/
def irNewStringLabel (s : IRGenState) : String × IRGenState :=
  ("STR" ++ toString (s.string_counter + 1), { s with string_counter := s.string_counter + 1 })

/-- `{'+=': ADD, '-=': SUB, '*=': MUL, '/=': DIV}.get(op, 'ADD')`. -/
def compoundOpMap (opr : String) : String :=
  if opr == "+=" then "ADD"
  else if opr == "-=" then "SUB"
  else if opr == "*=" then "MUL"
  else if opr == "/=" then "DIV"
  else "ADD"

/-- `{'+': ADD, '-': SUB, '*': MUL, '/': DIV, '%': MOD}.get(op, 'ADD')`. -/
def binOpMap (opr : String) : String :=
  if opr == "+" then "ADD"
  else if opr == "-" then "SUB"
  else if opr == "*" then "MUL"
  else if opr == "/" then "DIV"
  else if opr == "%" then "MOD"
  else "ADD"

/-- `{'==': EQ, '!=': NE, '<': LT, '>': GT, '<=': LE, '>=': GE}.get(op, 'EQ')`. -/
def cmpOpMap (opr : String) : String :=
  if opr == "==" then "EQ"
  else if opr == "!=" then "NE"
  else if opr == "<" then "LT"
  else if opr == ">" then "GT"
  else if opr == "<=" then "LE"
  else if opr == ">=" then "GE"
  else "EQ"

/-- `{'&&': AND, '||': OR}.get(op, 'AND')`. -/
def logOpMap (opr : String) : String :=
  if opr == "&&" then "AND"
  else if opr == "||" then "OR"
  else "AND"

/-- The `RETURN` instruction `visit_FunctionDeclaration` synthesizes when the
body does not end in one: bare `RETURN` for `void`, `RETURN 0` otherwise. -/
def synthReturn (rt : String) : IRInstruction :=
  { op := "RETURN", arg1 := if rt == "void" then none else some "0" }

mutual

/-- `IRGenerator.visit`: returns the operand an expression lowers to (Python
`None` for statements) and the updated generator state. -/
def irVisit (n : AST) (s : IRGenState) : Option String × IRGenState :=
  match n with
  | .program stmts => (none, irVisitSeq stmts s)
  | .functionDeclaration rt name params body =>
    let s1 := { s with current_function := some name, temp_counter := 0 }
    let s2 := irEmit s1 { op := "FUNC_BEGIN", arg1 := some name }
    let s3 := params.foldl (fun st p =>
      irEmit { st with var_types := (p.2, p.1) :: st.var_types }
        { op := "PARAM_DECLARE", arg1 := some p.1, result := some p.2 }) s2
    let s4 := irVisitSeq body s3
    let s5 := if (s4.instructions.getLast?).map IRInstruction.op ≠ some "RETURN" then
        irEmit s4 (synthReturn rt)
      else s4
    let s6 := irEmit s5 { op := "FUNC_END", arg1 := some name }
    (none, { s6 with current_function := none })
  | .block stmts => (none, irVisitSeq stmts s)
  | .varDeclaration vt name value _line _col =>
    let s1 := { s with var_types := (name, vt) :: s.var_types }
    let s2 := irEmit s1 { op := "DECLARE", arg1 := some vt, result := some name }
    match value with
    | .some v =>
      let r := irVisit v s2
      (none, irEmit r.2 { op := "ASSIGN", arg1 := r.1, result := some name })
    | .none =>
      let d := if vt == "float" then "0.0" else "0"
      (none, irEmit s2 { op := "ASSIGN", arg1 := some d, result := some name })
  | .assignment name value _line _col =>
    let r := irVisit value s
    (some name, irEmit r.2 { op := "ASSIGN", arg1 := r.1, result := some name })
  | .compoundAssignment name opr value _line _col =>
    let r := irVisit value s
    let nt := irNewTemp r.2
    let s2 := irEmit nt.2 { op := compoundOpMap opr, arg1 := some name, arg2 := r.1, result := some nt.1 }
    (some name, irEmit s2 { op := "ASSIGN", arg1 := some nt.1, result := some name })
  | .binaryOp opr lhs rhs _line _col =>
    let lr := irVisit lhs s
    let rr := irVisit rhs lr.2
    let nt := irNewTemp rr.2
    (some nt.1, irEmit nt.2 { op := binOpMap opr, arg1 := lr.1, arg2 := rr.1, result := some nt.1 })
  | .comparisonOp opr lhs rhs _line _col =>
    let lr := irVisit lhs s
    let rr := irVisit rhs lr.2
    let nt := irNewTemp rr.2
    (some nt.1, irEmit nt.2 { op := cmpOpMap opr, arg1 := lr.1, arg2 := rr.1, result := some nt.1 })
  | .logicalOp opr lhs rhs _line _col =>
    if opr == "!" then
      let r := irVisit lhs s
      let nt := irNewTemp r.2
      (some nt.1, irEmit nt.2 { op := "NOT", arg1 := r.1, result := some nt.1 })
    else
      let lr := irVisit lhs s
      let rr := irVisitRhs rhs lr.2
      let nt := irNewTemp rr.2
      (some nt.1, irEmit nt.2 { op := logOpMap opr, arg1 := lr.1, arg2 := rr.1, result := some nt.1 })
  | .ifStatement c tb eb =>
    let cr := irVisit c s
    let el := irNewLabel cr.2 "ELSE"
    let en := irNewLabel el.2 "ENDIF"
    match eb with
    | .some e =>
      let s4 := irEmit en.2 { op := "IF_FALSE", arg1 := cr.1, result := some el.1 }
      let s5 := (irVisit tb s4).2
      let s6 := irEmit s5 { op := "GOTO", arg1 := some en.1 }
      let s7 := irEmit s6 { op := "LABEL", arg1 := some el.1 }
      let s8 := (irVisit e s7).2
      (none, irEmit s8 { op := "LABEL", arg1 := some en.1 })
    | .none =>
      let s4 := irEmit en.2 { op := "IF_FALSE", arg1 := cr.1, result := some en.1 }
      let s5 := (irVisit tb s4).2
      (none, irEmit s5 { op := "LABEL", arg1 := some en.1 })
  | .whileStatement c b =>
    let st := irNewLabel s "WHILE_START"
    let en := irNewLabel st.2 "WHILE_END"
    let s3 := { en.2 with
      loop_start_stack := en.2.loop_start_stack ++ [st.1],
      loop_end_stack := en.2.loop_end_stack ++ [en.1] }
    let s4 := irEmit s3 { op := "LABEL", arg1 := some st.1 }
    let cr := irVisit c s4
    let s6 := irEmit cr.2 { op := "IF_FALSE", arg1 := cr.1, result := some en.1 }
    let s7 := (irVisit b s6).2
    let s8 := irEmit s7 { op := "GOTO", arg1 := some st.1 }
    let s9 := irEmit s8 { op := "LABEL", arg1 := some en.1 }
    (none, { s9 with
      loop_start_stack := s9.loop_start_stack.dropLast,
      loop_end_stack := s9.loop_end_stack.dropLast })
  | .forStatement init c u b =>
    let st := irNewLabel s "FOR_START"
    let up := irNewLabel st.2 "FOR_UPDATE"
    let en := irNewLabel up.2 "FOR_END"
    let s3 := { en.2 with
      loop_start_stack := en.2.loop_start_stack ++ [up.1],
      loop_end_stack := en.2.loop_end_stack ++ [en.1] }
    let s4 := irVisitOpt init s3
    let s5 := irEmit s4 { op := "LABEL", arg1 := some st.1 }
    let s6 := match c with
      | .some cnode =>
        let cr := irVisit cnode s5
        irEmit cr.2 { op := "IF_FALSE", arg1 := cr.1, result := some en.1 }
      | .none => s5
    let s7 := (irVisit b s6).2
    let s8 := irEmit s7 { op := "LABEL", arg1 := some up.1 }
    let s9 := irVisitOpt u s8
    let s10 := irEmit s9 { op := "GOTO", arg1 := some st.1 }
    let s11 := irEmit s10 { op := "LABEL", arg1 := some en.1 }
    (none, { s11 with
      loop_start_stack := s11.loop_start_stack.dropLast,
      loop_end_stack := s11.loop_end_stack.dropLast })
  | .breakStatement =>
    match s.loop_end_stack.getLast? with
    | some l => (none, irEmit s { op := "GOTO", arg1 := some l })
    | none => (none, s)
  | .continueStatement =>
    match s.loop_start_stack.getLast? with
    | some l => (none, irEmit s { op := "GOTO", arg1 := some l })
    | none => (none, s)
  | .returnStatement value _line _col =>
    match value with
    | .some v =>
      let r := irVisit v s
      (none, irEmit r.2 { op := "RETURN", arg1 := r.1 })
    | .none => (none, irEmit s { op := "RETURN" })
  | .functionCall name args _line _col =>
    let r := irVisitArgs args s
    let s2 := r.1.foldl (fun st a => irEmit st { op := "PARAM", arg1 := a }) r.2
    let nt := irNewTemp s2
    let callInstr : IRInstruction :=
      { op := "CALL", arg1 := some name, arg2 := some (toString r.1.length),
        result := some nt.1 }
    (some nt.1, irEmit nt.2 callInstr)
  | .number v _line _col => (some v, s)
  | .stringLiteral v _line _col =>
    let sl := irNewStringLabel s
    (some sl.1, { sl.2 with string_literals := sl.2.string_literals ++ [(sl.1, v)] })
  | .identifier name _line _col => (some name, s)
  | .parameter _pt _pn => (none, s)

/-- Visit a statement sequence, discarding operands. -/
def irVisitSeq (l : ASTList) (s : IRGenState) : IRGenState :=
  match l with
  | .nil => s
  | .cons h t => irVisitSeq t (irVisit h s).2

/-- `self.visit(node.x) if node.x else ...` for optional children. -/
def irVisitOpt (o : OptAST) (s : IRGenState) : IRGenState :=
  match o with
  | .none => s
  | .some n => (irVisit n s).2

/-- `right = self.visit(node.right) if node.right else None`. -/
def irVisitRhs (o : OptAST) (s : IRGenState) : Option String × IRGenState :=
  match o with
  | .none => (none, s)
  | .some n => irVisit n s

/-- Lower the argument list of a call, left to right, collecting operands. -/
def irVisitArgs (l : ASTList) (s : IRGenState) : List (Option String) × IRGenState :=
  match l with
  | .nil => ([], s)
  | .cons h t =>
    let r := irVisit h s
    let rs := irVisitArgs t r.2
    (r.1 :: rs.1, rs.2)

end

/-- `IRGenerator.__init__`: the generator's starting state. -/
def irInitState : IRGenState :=
  { instructions := [], temp_counter := 0, label_counter := 0, current_function := none,
    string_literals := [], string_counter := 0, var_types := [],
    loop_start_stack := [], loop_end_stack := [] }

/-- `IRGenerator.generate`. -/
def irGenerate (ast : AST) : List IRInstruction :=
  ((irVisit ast irInitState).2).instructions

/-! ## Claim C5: every FUNC_END is immediately preceded by a RETURN
(confirmed) -/

/-- The opcode of the last instruction, with default `p` for an empty list
(models `self.instructions[-1].op` guarded by `not self.instructions`). -/
def lastOpD (p : Option String) : List IRInstruction → Option String
  | [] => p
  | b :: rest => lastOpD (some b.op) rest

/-- Every `FUNC_END` in the list is immediately preceded by a `RETURN`; `p` is
the opcode of the element just before the list (`none` at the very front). -/
def feFromB (p : Option String) : List IRInstruction → Bool
  | [] => true
  | b :: rest => (b.op != "FUNC_END" || p == some "RETURN") && feFromB (some b.op) rest

/-- The generator-state invariant behind claim C5. -/
def irOK (s : IRGenState) : Prop :=
  feFromB none s.instructions = true

theorem getLast_cons_ne_none : ∀ (c : IRInstruction) (t2 : List IRInstruction),
    (c :: t2).getLast? = none → False
  | c, [], h => by simp at h
  | c, d :: t3, h => by
    rw [List.getLast?_cons_cons] at h
    exact getLast_cons_ne_none d t3 h

theorem lastOpD_eq : ∀ (l : List IRInstruction) (p : Option String),
    lastOpD p l = match l.getLast? with
      | some x => some x.op
      | none => p
  | [], _ => rfl
  | [a], _ => rfl
  | a :: b :: t, p => by
    show lastOpD (some a.op) (b :: t) = _
    rw [lastOpD_eq (b :: t) (some a.op)]
    rw [List.getLast?_cons_cons]
    rcases hgl : (b :: t).getLast? with _ | x
    · exact (getLast_cons_ne_none b t hgl).elim
    · rfl

theorem lastOpD_append : ∀ (l : List IRInstruction) (p : Option String)
    (m : List IRInstruction), lastOpD p (l ++ m) = lastOpD (lastOpD p l) m
  | [], p, m => rfl
  | a :: t, p, m => by
    show lastOpD (some a.op) (t ++ m) = _
    rw [lastOpD_append t (some a.op) m]
    rfl

theorem lastOpD_concat (l : List IRInstruction) (x : IRInstruction) :
    lastOpD none (l ++ [x]) = some x.op := by
  rw [lastOpD_append]
  rfl

theorem lastOpD_of_getLast (l : List IRInstruction)
    (h : (l.getLast?).map IRInstruction.op = some "RETURN") :
    lastOpD none l = some "RETURN" := by
  rw [lastOpD_eq]
  rcases hgl : l.getLast? with _ | x
  · rw [hgl] at h
    simp at h
  · rw [hgl] at h
    simpa using h

theorem feFromB_append : ∀ (l : List IRInstruction) (p : Option String)
    (m : List IRInstruction),
    feFromB p (l ++ m) = (feFromB p l && feFromB (lastOpD p l) m)
  | [], p, m => by simp [feFromB, lastOpD]
  | a :: t, p, m => by
    show ((a.op != "FUNC_END" || p == some "RETURN") && feFromB (some a.op) (t ++ m)) = _
    rw [feFromB_append t (some a.op) m]
    simp [feFromB, lastOpD, Bool.and_assoc]

theorem irOK_emit (s : IRGenState) (i : IRInstruction) (hop : i.op ≠ "FUNC_END")
    (h : irOK s) : irOK (irEmit s i) := by
  simp only [irOK, irEmit, feFromB_append]
  simp only [irOK] at h
  simp [h, feFromB, hop]

theorem irOK_emit_funcEnd (s : IRGenState) (i : IRInstruction) (hop : i.op = "FUNC_END")
    (h : irOK s) (hlast : lastOpD none s.instructions = some "RETURN") :
    irOK (irEmit s i) := by
  simp only [irOK, irEmit, feFromB_append]
  simp only [irOK] at h
  simp [h, feFromB, hlast]

theorem irOK_foldParams (params : List (String × String)) :
    ∀ (s : IRGenState), irOK s →
    irOK (params.foldl (fun st p =>
      irEmit { st with var_types := (p.2, p.1) :: st.var_types }
        { op := "PARAM_DECLARE", arg1 := some p.1, result := some p.2 }) s) := by
  induction params with
  | nil => intro s h; simpa using h
  | cons p ps ih =>
    intro s h
    simp only [List.foldl_cons]
    exact ih _ (irOK_emit _ _ (by simp) h)

theorem irOK_foldCallParams (vals : List (Option String)) :
    ∀ (s : IRGenState), irOK s →
    irOK (vals.foldl (fun st a => irEmit st { op := "PARAM", arg1 := a }) s) := by
  induction vals with
  | nil => intro s h; simpa using h
  | cons v vs ih =>
    intro s h
    simp only [List.foldl_cons]
    exact ih _ (irOK_emit _ _ (by simp) h)

theorem compoundOpMap_ne_funcEnd (opr : String) : compoundOpMap opr ≠ "FUNC_END" := by
  unfold compoundOpMap
  split_ifs <;> simp

theorem binOpMap_ne_funcEnd (opr : String) : binOpMap opr ≠ "FUNC_END" := by
  unfold binOpMap
  split_ifs <;> simp

theorem cmpOpMap_ne_funcEnd (opr : String) : cmpOpMap opr ≠ "FUNC_END" := by
  unfold cmpOpMap
  split_ifs <;> simp

theorem logOpMap_ne_funcEnd (opr : String) : logOpMap opr ≠ "FUNC_END" := by
  unfold logOpMap
  split_ifs <;> simp

mutual

theorem irOKVisit : (n : AST) → (s : IRGenState) → irOK s → irOK ((irVisit n s).2)
  | .program stmts, s, h => irOKSeq stmts s h
  | .functionDeclaration rt name params body, s, h => by
    simp only [irVisit]
    split
    · next hc =>
      refine irOK_emit_funcEnd _ _ rfl ?_ ?_
      · exact irOK_emit _ _ (by simp [synthReturn])
          (irOKSeq body _ (irOK_foldParams params _ (irOK_emit _ _ (by simp) h)))
      · simp only [irEmit]
        rw [lastOpD_concat]
        rfl
    · next hc =>
      exact irOK_emit_funcEnd _ _ rfl
        (irOKSeq body _ (irOK_foldParams params _ (irOK_emit _ _ (by simp) h)))
        (lastOpD_of_getLast _ (not_not.mp hc))
  | .block stmts, s, h => irOKSeq stmts s h
  | .varDeclaration vt name value _line _col, s, h => by
    cases value with
    | none => exact irOK_emit _ _ (by simp) (irOK_emit _ _ (by simp) h)
    | some v =>
      exact irOK_emit _ _ (by simp) (irOKVisit v _ (irOK_emit _ _ (by simp) h))
  | .assignment name value _line _col, s, h =>
    irOK_emit _ _ (by simp) (irOKVisit value s h)
  | .compoundAssignment name opr value _line _col, s, h =>
    irOK_emit _ _ (by simp) (irOK_emit _ _ (compoundOpMap_ne_funcEnd opr)
      (irOKVisit value s h))
  | .binaryOp opr lhs rhs _line _col, s, h =>
    irOK_emit _ _ (binOpMap_ne_funcEnd opr) (irOKVisit rhs _ (irOKVisit lhs s h))
  | .comparisonOp opr lhs rhs _line _col, s, h =>
    irOK_emit _ _ (cmpOpMap_ne_funcEnd opr) (irOKVisit rhs _ (irOKVisit lhs s h))
  | .logicalOp opr lhs rhs _line _col, s, h => by
    simp only [irVisit]
    split
    · exact irOK_emit _ _ (by simp) (irOKVisit lhs s h)
    · exact irOK_emit _ _ (logOpMap_ne_funcEnd opr) (irOKRhs rhs _ (irOKVisit lhs s h))
  | .ifStatement c tb eb, s, h => by
    cases eb with
    | some e =>
      exact irOK_emit _ _ (by simp) (irOKVisit e _ (irOK_emit _ _ (by simp)
        (irOK_emit _ _ (by simp) (irOKVisit tb _ (irOK_emit _ _ (by simp)
          (irOKVisit c s h))))))
    | none =>
      exact irOK_emit _ _ (by simp) (irOKVisit tb _ (irOK_emit _ _ (by simp)
        (irOKVisit c s h)))
  | .whileStatement c b, s, h =>
    irOK_emit _ _ (by simp) (irOK_emit _ _ (by simp) (irOKVisit b _
      (irOK_emit _ _ (by simp) (irOKVisit c _ (irOK_emit _ _ (by simp) h)))))
  | .forStatement init c u b, s, h => by
    cases c with
    | none =>
      exact irOK_emit _ _ (by simp) (irOK_emit _ _ (by simp) (irOKOpt u _
        (irOK_emit _ _ (by simp) (irOKVisit b _
          (irOK_emit _ _ (by simp) (irOKOpt init _ h))))))
    | some cnode =>
      exact irOK_emit _ _ (by simp) (irOK_emit _ _ (by simp) (irOKOpt u _
        (irOK_emit _ _ (by simp) (irOKVisit b _
          (irOK_emit _ _ (by simp) (irOKVisit cnode _
            (irOK_emit _ _ (by simp) (irOKOpt init _ h))))))))
  | .breakStatement, s, h => by
    simp only [irVisit]
    cases hgl : s.loop_end_stack.getLast? with
    | some l => exact irOK_emit _ _ (by simp) h
    | none => exact h
  | .continueStatement, s, h => by
    simp only [irVisit]
    cases hgl : s.loop_start_stack.getLast? with
    | some l => exact irOK_emit _ _ (by simp) h
    | none => exact h
  | .returnStatement value _line _col, s, h => by
    cases value with
    | none => exact irOK_emit _ _ (by simp) h
    | some v => exact irOK_emit _ _ (by simp) (irOKVisit v s h)
  | .functionCall name args _line _col, s, h =>
    irOK_emit _ _ (by simp) (irOK_foldCallParams _ _ (irOKArgs args s h))
  | .number v _line _col, s, h => h
  | .stringLiteral v _line _col, s, h => h
  | .identifier name _line _col, s, h => h
  | .parameter _pt _pn, s, h => h

theorem irOKSeq : (l : ASTList) → (s : IRGenState) → irOK s → irOK (irVisitSeq l s)
  | .nil, s, h => h
  | .cons hd tl, s, h => irOKSeq tl _ (irOKVisit hd s h)

theorem irOKOpt : (o : OptAST) → (s : IRGenState) → irOK s → irOK (irVisitOpt o s)
  | .none, s, h => h
  | .some n, s, h => irOKVisit n s h

theorem irOKRhs : (o : OptAST) → (s : IRGenState) → irOK s → irOK ((irVisitRhs o s).2)
  | .none, s, h => h
  | .some n, s, h => irOKVisit n s h

theorem irOKArgs : (l : ASTList) → (s : IRGenState) → irOK s → irOK ((irVisitArgs l s).2)
  | .nil, s, h => h
  | .cons hd tl, s, h => irOKArgs tl _ (irOKVisit hd s h)

end

theorem feFromB_pairs : ∀ (l : List IRInstruction) (p : Option String),
    feFromB p l = true →
    (∀ (i : Nat) (h : i + 1 < l.length), (l.get ⟨i + 1, h⟩).op = "FUNC_END" →
      (l.get ⟨i, by omega⟩).op = "RETURN") ∧
    (∀ (h0 : 0 < l.length), (l.get ⟨0, h0⟩).op = "FUNC_END" → p = some "RETURN")
  | [], p, _ => by
    constructor
    · intro i h
      simp at h
    · intro h0
      simp at h0
  | b :: rest, p, hfe => by
    have hb : (b.op != "FUNC_END" || p == some "RETURN") = true ∧
        feFromB (some b.op) rest = true := by
      simpa [feFromB, Bool.and_eq_true] using hfe
    have ih := feFromB_pairs rest (some b.op) hb.2
    constructor
    · intro i h hop
      cases i with
      | zero =>
        have h1 : (rest.get ⟨0, by simpa using h⟩).op = "FUNC_END" := by
          simpa using hop
        have h2 := ih.2 (by simpa using h) h1
        have hb2 : b.op = "RETURN" := by simpa using h2
        simpa using hb2
      | succ j =>
        have h1 : ((rest.get ⟨j + 1, by simpa using h⟩)).op = "FUNC_END" := by
          simpa using hop
        have := ih.1 j (by simpa using h) h1
        simpa using this
    · intro h0 hop
      rcases Bool.or_eq_true_iff.mp hb.1 with hne | heq
      · exact absurd (by simpa using hop) (by simpa using hne)
      · simpa using heq

/-- C5: in the IR generated for any AST, a `FUNC_END` never appears first,
and every instruction immediately preceding a `FUNC_END` is a `RETURN`;
moreover, whenever the lowered function body (after `FUNC_BEGIN` and the
parameter declarations) does not already end in a `RETURN`, the generator
appends exactly the synthesized return — bare `RETURN` for a `void` function,
`RETURN 0` otherwise — followed by `FUNC_END`. -/
theorem c5_theorem (ast : AST) :
    (∀ (i : Nat) (h : i + 1 < (irGenerate ast).length),
      ((irGenerate ast).get ⟨i + 1, h⟩).op = "FUNC_END" →
      ((irGenerate ast).get ⟨i, by omega⟩).op = "RETURN") ∧
    (∀ (h0 : 0 < (irGenerate ast).length),
      ((irGenerate ast).get ⟨0, h0⟩).op ≠ "FUNC_END") ∧
    (∀ (rt name : String) (params : List (String × String)) (body : ASTList)
      (s : IRGenState),
      ((irVisitSeq body (params.foldl (fun st p =>
          irEmit { st with var_types := (p.2, p.1) :: st.var_types }
            { op := "PARAM_DECLARE", arg1 := some p.1, result := some p.2 })
          (irEmit { s with current_function := some name, temp_counter := 0 }
            { op := "FUNC_BEGIN", arg1 := some name }))).instructions.getLast?).map
          IRInstruction.op ≠ some "RETURN" →
      ((irVisit (.functionDeclaration rt name params body) s).2).instructions =
        (irVisitSeq body (params.foldl (fun st p =>
          irEmit { st with var_types := (p.2, p.1) :: st.var_types }
            { op := "PARAM_DECLARE", arg1 := some p.1, result := some p.2 })
          (irEmit { s with current_function := some name, temp_counter := 0 }
            { op := "FUNC_BEGIN", arg1 := some name }))).instructions
          ++ [synthReturn rt, ⟨"FUNC_END", some name, none, none, none⟩] ∧
      synthReturn rt = ⟨"RETURN", if rt == "void" then none else some "0", none, none, none⟩) := by
  have hOK : irOK ((irVisit ast irInitState).2) := irOKVisit ast irInitState rfl
  have hp := feFromB_pairs ((irVisit ast irInitState).2).instructions none hOK
  refine ⟨hp.1, ?_, ?_⟩
  · intro h0 hop
    have := hp.2 h0 hop
    simp at this
  · intro rt name params body s hc
    refine ⟨?_, rfl⟩
    simp only [irVisit]
    rw [if_pos hc]
    simp [irEmit, List.append_assoc]

def c5Ast : AST := .functionDeclaration "int" "main" [] ASTList.nil

/-- Witness for C5: lowering `int main() {}` yields
`FUNC_BEGIN; RETURN 0; FUNC_END`, and the instruction before the `FUNC_END`
at index 2 is the synthesized `RETURN`. -/
theorem c5_witness : ((irGenerate c5Ast).get ⟨1, by decide⟩).op = "RETURN" :=
  (c5_theorem c5Ast).1 1 (by decide) (by decide)

/-! ## x86-64 backend (code_generator.py: CodeGenerator, target "x86")

`_generate_x86` resets `output`, `variables` and `stack_offset` once per
module, then emits a fixed header / `.data` / `.bss` prelude (pure string
building, not modelled) and runs `_generate_x86_instruction` over the
instruction stream; that loop and `_get_x86_operand` are embedded below.
`FUNC_BEGIN` resets `stack_offset` to 0 but — exactly as in the source —
does NOT clear `variables`, so temporaries cached in an earlier function
keep their old offsets. -/

structure X86State where
  output : List String
  varTable : List (String × Nat)
  stack_offset : Nat
  pending_params : List (Option String)
deriving DecidableEq, Repr

/-- `CodeGenerator._emit`. -/
def x86Emit (st : X86State) (line : String) : X86State :=
  { st with output := st.output ++ [line] }

/-- `CodeGenerator._get_x86_operand`.  The `is_dest` parameter of the source
is never read and is omitted.  The numeric test is `float(operand_str)`
succeeding; temporaries are recognised by `startswith('t')` alone and get a
lazily allocated, grow-only slot of 8 bytes; `variables` is a dict inserted
only on miss, so keys are unique and first-match lookup agrees with it. -/
def getX86Operand (st : X86State) (operand : Option String) : String × X86State :=
  match operand with
  | none => ("0", st)
  | some o =>
    if pyFloatValid o then (o, st)
    else if strStartsWith o "STR" then (o, st)
    else if strStartsWith o "t" then
      match st.varTable.find? (fun p => p.1 == o) with
      | some p => ("qword [rbp-" ++ toString p.2 ++ "]", st)
      | none =>
        let off := st.stack_offset + 8
        ("qword [rbp-" ++ toString off ++ "]",
          { st with stack_offset := off, varTable := st.varTable ++ [(o, off)] })
    else ("qword [" ++ o ++ "]", st)

/-- The `mov rax, arg1; <mn> rax, arg2; mov result, rax` pattern shared by
ADD/SUB/MUL/AND/OR (operands fetched in emission order). -/
def x86Binop (st : X86State) (i : IRInstruction) (mn : String) : X86State :=
  let r1 := getX86Operand st i.arg1
  let st1 := x86Emit r1.2 ("    mov rax, " ++ r1.1)
  let r2 := getX86Operand st1 i.arg2
  let st2 := x86Emit r2.2 ("    " ++ mn ++ " rax, " ++ r2.1)
  let r3 := getX86Operand st2 i.result
  x86Emit r3.2 ("    mov " ++ r3.1 ++ ", rax")

/-- The `cqo; mov rbx, arg2; idiv rbx` pattern of DIV/MOD; `res` is `rax`
for the quotient, `rdx` for the remainder. -/
def x86DivMod (st : X86State) (i : IRInstruction) (res : String) : X86State :=
  let r1 := getX86Operand st i.arg1
  let st1 := x86Emit r1.2 ("    mov rax, " ++ r1.1)
  let st2 := x86Emit st1 "    cqo"
  let r2 := getX86Operand st2 i.arg2
  let st3 := x86Emit r2.2 ("    mov rbx, " ++ r2.1)
  let st4 := x86Emit st3 "    idiv rbx"
  let r3 := getX86Operand st4 i.result
  x86Emit r3.2 ("    mov " ++ r3.1 ++ ", " ++ res)

/-- `cmp; set<cc> al; movzx rax, al` for the six comparisons. -/
def x86Cmp (st : X86State) (i : IRInstruction) (cc : String) : X86State :=
  let r1 := getX86Operand st i.arg1
  let st1 := x86Emit r1.2 ("    mov rax, " ++ r1.1)
  let r2 := getX86Operand st1 i.arg2
  let st2 := x86Emit r2.2 ("    cmp rax, " ++ r2.1)
  let st3 := x86Emit st2 ("    " ++ cc ++ " al")
  let st4 := x86Emit st3 "    movzx rax, al"
  let r3 := getX86Operand st4 i.result
  x86Emit r3.2 ("    mov " ++ r3.1 ++ ", rax")

/-- `['rdi', 'rsi', 'rdx', 'rcx', 'r8', 'r9'][i]`. -/
def paramReg (i : Nat) : String :=
  if i == 0 then "rdi"
  else if i == 1 then "rsi"
  else if i == 2 then "rdx"
  else if i == 3 then "rcx"
  else if i == 4 then "r8"
  else "r9"

/-- The parameter-setup loop of the CALL branch: parameters beyond the six
registers are silently skipped (`if i < len(param_regs)`). -/
def x86CallParams : List (Option String) → Nat → X86State → X86State
  | [], _, st => st
  | p :: rest, idx, st =>
    let st2 := if idx < 6 then
        if strStartsWith (pyStr p) "STR" then
          x86Emit st ("    lea " ++ paramReg idx ++ ", [" ++ pyStr p ++ "]")
        else
          let r := getX86Operand st p
          x86Emit r.2 ("    mov " ++ paramReg idx ++ ", " ++ r.1)
      else st
    x86CallParams rest (idx + 1) st2

/-- `CodeGenerator._generate_x86_instruction`. -/
def genX86Instr (st : X86State) (i : IRInstruction) : X86State :=
  if i.op == "FUNC_BEGIN" then
    let st1 := x86Emit st (pyStr i.arg1 ++ ":")
    let st2 := x86Emit st1 "    push rbp"
    let st3 := x86Emit st2 "    mov rbp, rsp"
    let st4 := x86Emit st3 "    sub rsp, 256"
    { st4 with stack_offset := 0 }
  else if i.op == "FUNC_END" then
    x86Emit (x86Emit (x86Emit (x86Emit st "    mov rsp, rbp") "    pop rbp") "    ret") ""
  else if i.op == "LABEL" then x86Emit st (pyStr i.arg1 ++ ":")
  else if i.op == "DECLARE" || i.op == "PARAM_DECLARE" then st
  else if i.op == "ASSIGN" then
    let rs := getX86Operand st i.arg1
    let rd := getX86Operand rs.2 i.result
    x86Emit (x86Emit rd.2 ("    mov rax, " ++ rs.1)) ("    mov " ++ rd.1 ++ ", rax")
  else if i.op == "ADD" then x86Binop st i "add"
  else if i.op == "SUB" then x86Binop st i "sub"
  else if i.op == "MUL" then x86Binop st i "imul"
  else if i.op == "DIV" then x86DivMod st i "rax"
  else if i.op == "MOD" then x86DivMod st i "rdx"
  else if i.op == "EQ" then x86Cmp st i "sete"
  else if i.op == "NE" then x86Cmp st i "setne"
  else if i.op == "LT" then x86Cmp st i "setl"
  else if i.op == "GT" then x86Cmp st i "setg"
  else if i.op == "LE" then x86Cmp st i "setle"
  else if i.op == "GE" then x86Cmp st i "setge"
  else if i.op == "AND" then x86Binop st i "and"
  else if i.op == "OR" then x86Binop st i "or"
  else if i.op == "NOT" then
    let r1 := getX86Operand st i.arg1
    let st1 := x86Emit r1.2 ("    mov rax, " ++ r1.1)
    let st2 := x86Emit st1 "    test rax, rax"
    let st3 := x86Emit st2 "    sete al"
    let st4 := x86Emit st3 "    movzx rax, al"
    let r3 := getX86Operand st4 i.result
    x86Emit r3.2 ("    mov " ++ r3.1 ++ ", rax")
  else if i.op == "IF_FALSE" then
    let r1 := getX86Operand st i.arg1
    x86Emit (x86Emit (x86Emit r1.2 ("    mov rax, " ++ r1.1)) "    test rax, rax")
      ("    jz " ++ pyStr i.result)
  else if i.op == "IF_TRUE" then
    let r1 := getX86Operand st i.arg1
    x86Emit (x86Emit (x86Emit r1.2 ("    mov rax, " ++ r1.1)) "    test rax, rax")
      ("    jnz " ++ pyStr i.result)
  else if i.op == "GOTO" then x86Emit st ("    jmp " ++ pyStr i.arg1)
  else if i.op == "PARAM" then
    { st with pending_params := st.pending_params ++ [i.arg1] }
  else if i.op == "CALL" then
    let params := st.pending_params
    let st0 : X86State := { st with pending_params := [] }
    let st1 := x86CallParams params 0 st0
    let st2 := x86Emit st1 "    xor rax, rax"
    let st3 := x86Emit st2 ("    call " ++ pyStr i.arg1)
    if pyTruthy i.result then
      let r := getX86Operand st3 i.result
      x86Emit r.2 ("    mov " ++ r.1 ++ ", rax")
    else st3
  else if i.op == "RETURN" then
    let st1 := if pyTruthy i.arg1 then
        let r := getX86Operand st i.arg1
        x86Emit r.2 ("    mov rax, " ++ r.1)
      else x86Emit st "    xor rax, rax"
    x86Emit (x86Emit (x86Emit st1 "    mov rsp, rbp") "    pop rbp") "    ret"
  else st

/-- The state `_generate_x86` starts its instruction loop with. -/
def x86InitState : X86State :=
  { output := [], varTable := [], stack_offset := 0, pending_params := [] }

/-- The text-section emission loop of `_generate_x86`. -/
def x86Run (instructions : List IRInstruction) : X86State :=
  instructions.foldl genX86Instr x86InitState

/-! ## Claim C7: operand classification in `_get_x86_operand` (corrected) -/

/-- A temporary of the form `t<digits>`: the letter `t` followed by one or
more decimal digits (the shape the IR generator's `new_temp` produces and the
shape the claim restricts stack slots to). -/
def isTempDigits (s : String) : Bool :=
  match s.data with
  | 't' :: rest => !rest.isEmpty && rest.all Char.isDigit
  | _ => false

/-- C7: REFUTED as stated.  The operand `total` is not a numeric literal, not
a `STR<n>` handle and not of the form `t<digits>`, yet `_get_x86_operand`
translates it to the stack slot `qword [rbp-8]` (allocating an offset for it)
rather than to the BSS operand `qword [total]`: the code classifies by the
prefix `t` alone (`operand_str.startswith('t')`, code_generator.py line 444),
so every identifier starting with `t` is treated as a temporary. -/
theorem c7_counterexample :
    pyFloatValid "total" = false ∧
    strStartsWith "total" "STR" = false ∧
    isTempDigits "total" = false ∧
    getX86Operand x86InitState (some "total") =
      ("qword [rbp-8]", ⟨[], [("total", 8)], 8, []⟩) ∧
    "qword [rbp-8]" ≠ "qword [total]" := by decide

/-- C7 (amended): `_get_x86_operand` classifies by prefix, in order: an
operand accepted by Python's `float()` maps to itself; otherwise a `STR`
prefix maps to itself; otherwise ANY operand starting with `t` — not only
`t<digits>` temporaries — maps to a stack slot `qword [rbp-<offset>]`; only
the remaining operands map to the BSS-resident `qword [name]`. -/
theorem c7_amended_theorem (st : X86State) (o : String) :
    (pyFloatValid o = true → getX86Operand st (some o) = (o, st)) ∧
    (pyFloatValid o = false → strStartsWith o "STR" = true →
      getX86Operand st (some o) = (o, st)) ∧
    (pyFloatValid o = false → strStartsWith o "STR" = false →
      strStartsWith o "t" = true →
      ∃ off : Nat,
        (getX86Operand st (some o)).1 = "qword [rbp-" ++ toString off ++ "]") ∧
    (pyFloatValid o = false → strStartsWith o "STR" = false →
      strStartsWith o "t" = false →
      getX86Operand st (some o) = ("qword [" ++ o ++ "]", st)) := by
  refine ⟨?_, ?_, ?_, ?_⟩
  · intro h1
    simp [getX86Operand, h1]
  · intro h1 h2
    simp [getX86Operand, h1, h2]
  · intro h1 h2 h3
    simp only [getX86Operand, h1, h2, h3, Bool.false_eq_true, if_false, if_true]
    cases hf : st.varTable.find? (fun p => p.1 == o) with
    | some p => exact ⟨p.2, rfl⟩
    | none => exact ⟨st.stack_offset + 8, rfl⟩
  · intro h1 h2 h3
    simp [getX86Operand, h1, h2, h3]

/-- A BSS-resident operand obtained from the amended theorem at a concrete
input. -/
theorem c7_witness :
    getX86Operand x86InitState (some "x") = ("qword [x]", x86InitState) :=
  (c7_amended_theorem x86InitState "x").2.2.2 (by decide) (by decide) (by decide)

/-! ## Claim C8: distinct temporaries get distinct stack slots (code bug)

`FUNC_BEGIN` resets `stack_offset` to 0 but never clears `self.variables`
(code_generator.py lines 293-299 vs 444-453), so in the second function of a
module a temporary cached by the first function keeps its old offset while a
fresh temporary restarts from 8 — two distinct temporaries of the SAME
function then share one `rbp` offset. -/

/-- Two functions: `f` uses `t1` (cached at offset 8) and `t2` (offset 16);
`g` then uses the fresh `t3` and the stale `t1`. -/
def c8Prog : List IRInstruction :=
  [⟨"FUNC_BEGIN", some "f", none, none, none⟩,
   ⟨"ASSIGN", some "1", none, some "t1", none⟩,
   ⟨"ASSIGN", some "2", none, some "t2", none⟩,
   ⟨"FUNC_END", some "f", none, none, none⟩,
   ⟨"FUNC_BEGIN", some "g", none, none, none⟩,
   ⟨"ASSIGN", some "3", none, some "t3", none⟩,
   ⟨"ASSIGN", some "4", none, some "t1", none⟩]

/-- C8: REFUTED — code bug.  Running the x86 backend over `c8Prog`, the
distinct temporaries `t1` and `t3` are both assigned offset 8, and inside the
body of the second function `g` (the 12 lines of `f`'s section dropped) both stores target the same slot `qword [rbp-8]`: the assignment to
`t1` silently overwrites `t3`.  The offsets are NOT grow-only per function in
the sense of the claim, because `FUNC_BEGIN` resets `stack_offset` without
clearing the cached `variables` map. -/
theorem c8_bug_eval :
    (x86Run c8Prog).varTable.find? (fun p => p.1 == "t1") = some ("t1", 8) ∧
    (x86Run c8Prog).varTable.find? (fun p => p.1 == "t3") = some ("t3", 8) ∧
    "t1" ≠ "t3" ∧
    (x86Run c8Prog).output.drop 12 =
      ["g:", "    push rbp", "    mov rbp, rsp", "    sub rsp, 256",
       "    mov rax, 3", "    mov qword [rbp-8], rax",
       "    mov rax, 4", "    mov qword [rbp-8], rax"] := by decide

/-! ## Lexer (lexer.py: TOKEN_SPECIFICATION, Lexer.tokenize)

The master regex is an ordered alternation; at each position the first
alternative that matches wins, and every alternative's own match is the
deterministic one computed below (the only backtracking point, `\d+\.\d+`,
cannot retry with a shorter digit run since `.` is not a digit).  `\d`,
`\w`-like classes are modelled over ASCII, the only characters Mini-C sources
use.  Every position of the input is covered: `\n` matches NEWLINE and any
other character matches MISMATCH (`.`), so `finditer` yields a contiguous
sequence of matches and the loop below consumes the text left to right. -/

/-- `KEYWORDS`. -/
def lexKeywords : List String :=
  ["int", "float", "char", "void", "if", "else", "for", "while",
   "return", "break", "continue"]

structure LexToken where
  token_type : String
  lexeme : String
  line : Nat
  column : Nat
deriving DecidableEq, Repr

structure LexState where
  tokens : List LexToken
  symbol_table : List (String × String)
  errors : List String
deriving DecidableEq, Repr

/-- `Lexer._add_symbol`: first category wins. -/
def addSymbol (st : LexState) (name category : String) : LexState :=
  if st.symbol_table.any (fun p => p.1 == name) then st
  else { st with symbol_table := st.symbol_table ++ [(name, category)] }

/-- Body of `/*...*/` after the opening `/*`: the non-greedy `[\s\S]*?\*/`
stops at the first `*/` (consumed chars including it, rest); `none` when the
comment is unterminated, in which case the COMMENT alternative fails. -/
def scanBlock : List Char → Option (List Char × List Char)
  | [] => none
  | c :: rest =>
    if c == '*' then
      match rest with
      | '/' :: r2 => some (['*', '/'], r2)
      | _ => (scanBlock rest).map (fun p => (c :: p.1, p.2))
    else (scanBlock rest).map (fun p => (c :: p.1, p.2))

/-- `//.*|/\*[\s\S]*?\*/` (after matching the leading two characters). -/
def tryComment : List Char → Option (List Char × List Char)
  | '/' :: '/' :: rest =>
    some ('/' :: '/' :: rest.takeWhile (fun c => c != '\n'),
      rest.dropWhile (fun c => c != '\n'))
  | '/' :: '*' :: rest => (scanBlock rest).map (fun p => ('/' :: '*' :: p.1, p.2))
  | _ => none

/-- `\d+\.\d+`: maximal digit run, a dot, maximal digit run. -/
def tryFloatTok (cs : List Char) : Option (List Char × List Char) :=
  let d1 := cs.takeWhile Char.isDigit
  if d1.isEmpty then none else
  match cs.dropWhile Char.isDigit with
  | '.' :: r2 =>
    let d2 := r2.takeWhile Char.isDigit
    if d2.isEmpty then none
    else some (d1 ++ '.' :: d2, r2.dropWhile Char.isDigit)
  | _ => none

/-- `\d+`. -/
def tryIntTok (cs : List Char) : Option (List Char × List Char) :=
  let d := cs.takeWhile Char.isDigit
  if d.isEmpty then none else some (d, cs.dropWhile Char.isDigit)

/-- Body of `"([^"\\]|\\.)*"` after the opening quote: the starred group
consumes forced units (a lone non-quote-non-backslash character, or a
backslash and any non-newline character), so the match closes at the first
boundary holding a quote; `none` when none exists. -/
def scanStringBody : List Char → Option (List Char × List Char)
  | [] => none
  | c :: rest =>
    if c == '"' then some (['"'], rest)
    else if c == '\\' then
      match rest with
      | [] => none
      | d :: r2 =>
        if d == '\n' then none
        else (scanStringBody r2).map (fun p => (c :: d :: p.1, p.2))
    else (scanStringBody rest).map (fun p => (c :: p.1, p.2))

def tryStringTok : List Char → Option (List Char × List Char)
  | '"' :: rest => (scanStringBody rest).map (fun p => ('"' :: p.1, p.2))
  | _ => none

/-- `'.'`: a quoted single character other than a newline. -/
def tryCharTok : List Char → Option (List Char × List Char)
  | '\x27' :: c :: '\x27' :: rest =>
    if c == '\n' then none else some (['\x27', c, '\x27'], rest)
  | _ => none

def isSingleOp (c : Char) : Bool :=
  "+-*/%=<>&|!".data.contains c

def isTwoCharOp (c d : Char) : Bool :=
  (c == '+' && d == '+') || (c == '-' && d == '-') ||
  (c == '=' && d == '=') || (c == '!' && d == '=') ||
  (c == '<' && d == '=') || (c == '>' && d == '=') ||
  (c == '+' && d == '=') || (c == '-' && d == '=') ||
  (c == '*' && d == '=') || (c == '/' && d == '=') ||
  (c == '&' && d == '&') || (c == '|' && d == '|')

/-- `\+\+|--|==|!=|<=|>=|\+=|-=|\*=|/=|&&|\|\||[+\-*/%=<>&|!]`: the two-
character alternatives precede the single characters. -/
def tryOpTok : List Char → Option (List Char × List Char)
  | c :: d :: rest =>
    if isTwoCharOp c d then some ([c, d], rest)
    else if isSingleOp c then some ([c], d :: rest) else none
  | [c] => if isSingleOp c then some ([c], []) else none
  | [] => none

def isDelim (c : Char) : Bool :=
  "()[];,".data.contains c || c == '\x7b' || c == '\x7d'

def tryDelimTok : List Char → Option (List Char × List Char)
  | c :: rest => if isDelim c then some ([c], rest) else none
  | [] => none

def isIdentStart (c : Char) : Bool := c.isAlpha || c == '_'

def isIdentCont (c : Char) : Bool := c.isAlphanum || c == '_'

/-- `[A-Za-z_][A-Za-z0-9_]*`. -/
def tryIdentTok : List Char → Option (List Char × List Char)
  | c :: rest =>
    if isIdentStart c then
      some (c :: rest.takeWhile isIdentCont, rest.dropWhile isIdentCont)
    else none
  | [] => none

/-- `[ \t]+`. -/
def trySkipTok (cs : List Char) : Option (List Char × List Char) :=
  let d := cs.takeWhile (fun c => c == ' ' || c == '\t')
  if d.isEmpty then none
  else some (d, cs.dropWhile (fun c => c == ' ' || c == '\t'))

/-- One step of `TOKEN_REGEX.finditer`: the first alternative of
`TOKEN_SPECIFICATION` matching at the current position, as
`(lastgroup, lexeme, rest)`. -/
def matchTok (cs : List Char) : Option (String × List Char × List Char) :=
  match tryComment cs with
  | some p => some ("COMMENT", p.1, p.2)
  | none => match tryFloatTok cs with
  | some p => some ("FLOAT_LITERAL", p.1, p.2)
  | none => match tryIntTok cs with
  | some p => some ("INTEGER_LITERAL", p.1, p.2)
  | none => match tryStringTok cs with
  | some p => some ("STRING_LITERAL", p.1, p.2)
  | none => match tryCharTok cs with
  | some p => some ("CHAR_LITERAL", p.1, p.2)
  | none => match tryOpTok cs with
  | some p => some ("OPERATOR", p.1, p.2)
  | none => match tryDelimTok cs with
  | some p => some ("DELIMITER", p.1, p.2)
  | none => match tryIdentTok cs with
  | some p => some ("IDENTIFIER", p.1, p.2)
  | none => match cs with
  | '\n' :: rest => some ("NEWLINE", ['\n'], rest)
  | _ => match trySkipTok cs with
  | some p => some ("SKIP", p.1, p.2)
  | none => match cs with
  | c :: rest => if c == '\n' then none else some ("MISMATCH", [c], rest)
  | [] => none

/-- `delimiter_map.get(value, 'DELIMITER')`. -/
def delimName (c : Char) : String :=
  if c == ';' then "SEMICOLON"
  else if c == '(' then "LPAREN"
  else if c == ')' then "RPAREN"
  else if c == '\x7b' then "LBRACE"
  else if c == '\x7d' then "RBRACE"
  else if c == '[' then "LBRACKET"
  else if c == ']' then "RBRACKET"
  else if c == ',' then "COMMA"
  else "DELIMITER"

/-- The body of the `for match in TOKEN_REGEX.finditer(code)` loop of
`Lexer.tokenize`, one iteration per match.  `pos` is the absolute index of
the current position, `ls` the Python `line_start`, and `col` the value the
loop variable `column` currently holds — `none` while it has never been
assigned, which is exactly Python's unbound local.  The fuel starts at the
number of characters and every match consumes at least one, so the fuel
branch is never reached on the initial call. -/
def lexLoop : Nat → List Char → Nat → Nat → Nat → LexState → Option Nat →
    LexState × Nat × Option Nat
  | 0, _, _, ln, _, st, col => (st, ln, col)
  | _ + 1, [], _, ln, _, st, col => (st, ln, col)
  | fuel + 1, cs, pos, ln, ls, st, col =>
    match matchTok cs with
    | none => (st, ln, col)
    | some (kind, lex, rest) =>
      let column := pos - ls + 1
      let value := String.mk lex
      let pos2 := pos + lex.length
      if kind == "NEWLINE" then
        lexLoop fuel rest pos2 (ln + 1) pos2 st (some column)
      else if kind == "SKIP" then
        lexLoop fuel rest pos2 ln ls st (some column)
      else if kind == "COMMENT" then
        lexLoop fuel rest pos2 (ln + lex.count '\n') ls st (some column)
      else if kind == "IDENTIFIER" then
        if lexKeywords.contains value then
          lexLoop fuel rest pos2 ln ls
            { st with tokens := st.tokens ++ [⟨"KEYWORD", value, ln, column⟩] }
            (some column)
        else
          let st1 := addSymbol st value "identifier"
          lexLoop fuel rest pos2 ln ls
            { st1 with tokens := st1.tokens ++ [⟨"IDENTIFIER", value, ln, column⟩] }
            (some column)
      else if kind == "INTEGER_LITERAL" || kind == "FLOAT_LITERAL" ||
          kind == "STRING_LITERAL" || kind == "CHAR_LITERAL" then
        let st1 := addSymbol st value "literal"
        lexLoop fuel rest pos2 ln ls
          { st1 with tokens := st1.tokens ++ [⟨kind, value, ln, column⟩] }
          (some column)
      else if kind == "DELIMITER" then
        let name := match lex with
          | [c] => delimName c
          | _ => "DELIMITER"
        lexLoop fuel rest pos2 ln ls
          { st with tokens := st.tokens ++ [⟨name, value, ln, column⟩] }
          (some column)
      else if kind == "OPERATOR" then
        lexLoop fuel rest pos2 ln ls
          { st with tokens := st.tokens ++ [⟨"OPERATOR", value, ln, column⟩] }
          (some column)
      else
        lexLoop fuel rest pos2 ln ls
          { st with errors := st.errors ++
              ["Lexical Error (line " ++ toString ln ++ ", col " ++
               toString column ++ "): Invalid character '" ++ value ++ "'"] }
          (some column)

/-- `Lexer.tokenize`.  After the loop the source appends
`Token('EOF', '$', line_num, column)`; when the loop body never ran, the
local `column` was never assigned and Python raises `UnboundLocalError`,
modelled as the error branch. -/
def tokenize (code : String) : Except String LexState :=
  let cs := code.data
  let r := lexLoop cs.length cs 0 1 0 ⟨[], [], []⟩ none
  match r.2.2 with
  | none =>
    Except.error "UnboundLocalError: local variable 'column' referenced before assignment"
  | some col =>
    Except.ok { r.1 with tokens := r.1.tokens ++ [⟨"EOF", "$", r.2.1, col⟩] }

deriving instance DecidableEq for Except

/-! ## Claim C9: tokenize never crashes and always ends with EOF (code bug) -/

/-- C9: REFUTED — code bug.  On the empty source text the match loop never
runs, `column` is never assigned, and the EOF-token line
`Token('EOF', '$', line_num, column)` raises `UnboundLocalError`; the
tokenizer crashes instead of returning a token list terminated by an EOF
token.  On any nonempty source the loop runs at least once (every position
matches some alternative) and the EOF token is appended, as the second
conjunct illustrates on `int x = 5;` followed by a newline. -/
theorem c9_bug_eval :
    tokenize "" =
      Except.error
        "UnboundLocalError: local variable 'column' referenced before assignment" ∧
    tokenize "int x = 5;\n" =
      Except.ok
        { tokens :=
            [⟨"KEYWORD", "int", 1, 1⟩, ⟨"IDENTIFIER", "x", 1, 5⟩,
             ⟨"OPERATOR", "=", 1, 7⟩, ⟨"INTEGER_LITERAL", "5", 1, 9⟩,
             ⟨"SEMICOLON", ";", 1, 10⟩, ⟨"EOF", "$", 2, 11⟩],
          symbol_table := [("x", "identifier"), ("5", "literal")],
          errors := [] } := by decide
